import Mathlib

/-! # logrotate: a rotating log-file writer

A shallow embedding of `rotate.go` (package `logrotate`) and a verification of
its rotation engine: the bucket calculator `nextRotate`, the timestamp layout
`timestampFormat`, the rotation decision `needsRotate`, the write / rotate /
close state machine, and the compress / cleanup retention sweep.

Conventions of the embedding

* `time.Duration` and `int64` values are `Int`; the one place where `int64`
  addition is applied to caller-controlled sizes (`curSize + size`) wraps
  explicitly through `add64`.
* An instant is an `Int` count of nanoseconds since `0001-01-01 00:00:00 UTC`
  (the zero `time.Time`), together with the location it is presented in.
* A `*time.Location` is an initial offset in seconds east of UTC and a list of
  transitions to other offsets; a fixed-offset zone has no transitions.
* The calendar is the proleptic Gregorian calendar of Go's `time` package.
* The file system is a list of regular files with their sizes; `Env` holds
  what the outside world answers during one call (clock, random bytes, which
  system calls fail). A panic is reported as the error `Error.nilStart`.
* The goroutine `go l.compressAndCleanup(fn, ts)` is recorded in `Sys.spawned`
  and run by the scheduler step `Sys.background`.
-/

namespace Logrotate

/-! ## Durations -/

/-- The constant `time.Second`, in nanoseconds. -/
def Second : Int := 1000000000

/-- The constant `time.Minute`, in nanoseconds. -/
def Minute : Int := 60 * Second

/-- The constant `time.Hour`, in nanoseconds. -/
def Hour : Int := 60 * Minute

/-- Go's `/` on integers: the quotient truncated toward zero. -/
def quo (a b : Int) : Int := Int.tdiv a b

/-- Go's `%` on integers: the remainder of the truncated quotient. -/
def rem (a b : Int) : Int := Int.tmod a b

/-- Addition of two `int64` values, wrapping around on overflow as Go does. -/
def add64 (a b : Int) : Int := (a + b + 2 ^ 63) % 2 ^ 64 - 2 ^ 63

/-! ## The `time` package: locations, instants and the civil calendar -/

/-- A `*time.Location`: the offset, in seconds east of UTC, in effect before
the first transition, and the transitions in increasing order, each an instant
(seconds since `0001-01-01 00:00:00 UTC`) with the offset in effect from that
instant on. A location without transitions is a fixed-offset zone. -/
structure Location where
  offset : Int
  transitions : List (Int × Int)
deriving DecidableEq, Repr

/-- The location `time.UTC`. -/
def UTC : Location := ⟨0, []⟩

/-- The function `time.FixedZone`: the zone that always uses `offset`. -/
def FixedZone (offset : Int) : Location := ⟨offset, []⟩

/-- The search of `l.lookup` through the transitions, `offset` being in effect
from `start` (`none`: from the beginning of time): the offset in effect at
`sec`, and the start and the end of the interval in which it is in effect
(`none`: unbounded). -/
def lookupFrom (offset : Int) (start : Option Int) :
    List (Int × Int) → Int → Int × Option Int × Option Int
  | [], _ => (offset, start, none)
  | tr :: rest, sec =>
    if sec < tr.1 then (offset, start, some tr.1) else lookupFrom tr.2 (some tr.1) rest sec

/-- The method `l.lookup(sec)`: the offset in effect at the instant `sec`, with
the start and the end of the interval in which it is in effect. -/
def Location.lookup (l : Location) (sec : Int) : Int × Option Int × Option Int :=
  lookupFrom l.offset none l.transitions sec

/-- A `time.Time`: nanoseconds since `0001-01-01 00:00:00 UTC` and the location
the instant is presented in. -/
structure Time where
  ns : Int
  loc : Location
deriving DecidableEq, Repr

/-- The zero value `time.Time{}`: January 1, year 1, 00:00:00 UTC. -/
def Time.zero : Time := ⟨0, UTC⟩

/-- Is `year` a leap year (`isLeap` of the `time` package). -/
def isLeap (year : Int) : Bool :=
  decide (year % 4 = 0) && (decide (year % 100 ≠ 0) || decide (year % 400 = 0))

/-- The table `daysBefore` of the `time` package: the number of days in a
non-leap year before month index `m` (0 = January); entry 12 is the year. -/
def daysBefore (m : Int) : Int :=
  if m = 0 then 0
  else if m = 1 then 31
  else if m = 2 then 59
  else if m = 3 then 90
  else if m = 4 then 120
  else if m = 5 then 151
  else if m = 6 then 181
  else if m = 7 then 212
  else if m = 8 then 243
  else if m = 9 then 273
  else if m = 10 then 304
  else if m = 11 then 334
  else 365

/-- Days from `0001-01-01` to January 1 of `year` (`daysSinceEpoch`, rebased to
year 1). -/
def daysSinceEpoch (year : Int) : Int :=
  365 * (year - 1) + (year - 1) / 4 - (year - 1) / 100 + (year - 1) / 400

/-- Days from `0001-01-01` to the first day of month index `m` (0 = January,
in `0..11`) of `year`: the day count `time.Date` builds before adding the day
of the month. -/
def monthStartDay (year m : Int) : Int :=
  daysSinceEpoch year + daysBefore m + (if isLeap year && decide (2 ≤ m) then 1 else 0)

/-- The function `time.Date`: the instant of the given civil date and clock in
`loc`. The month overflows into the year; day, hour, minute, second and
nanosecond values outside their usual ranges overflow into the next unit,
which for a sum of units is plain addition. The zone offset is looked up at
the local clock reading taken as UTC and, when the instant so obtained falls
outside the interval of that offset, looked up again at that instant. -/
def Date (year month day hour min sec nsec : Int) (loc : Location) : Time :=
  let m := month - 1
  let y := year + m / 12
  let m := m % 12
  let d := monthStartDay y m + (day - 1)
  let abs := d * 86400 + (hour * 3600 + min * 60 + sec) + nsec / Second
  let r := loc.lookup abs
  let utc := abs - r.1
  let early := match r.2.1 with
    | some start => decide (utc < start)
    | none => false
  let late := match r.2.2 with
    | some fin => decide (fin ≤ utc)
    | none => false
  let offset := if r.1 = 0 then 0 else if early || late then (loc.lookup utc).1 else r.1
  ⟨(abs - offset) * Second + nsec % Second, loc⟩

namespace Time

/-- The method `t.In(loc)`: the same instant presented in `loc`. -/
def In (t : Time) (loc : Location) : Time := ⟨t.ns, loc⟩

/-- The method `t.Before(u)`. -/
def Before (t u : Time) : Bool := decide (t.ns < u.ns)

/-- The method `t.Add(d)`. -/
def Add (t : Time) (d : Int) : Time := ⟨t.ns + d, t.loc⟩

/-- Seconds since `0001-01-01 00:00:00` on the local clock of `t`: the
instant moved by the offset in effect at it. -/
def localSec (t : Time) : Int := t.ns / Second + (t.loc.lookup (t.ns / Second)).1

/-- Days since `0001-01-01` on the local calendar of `t`. -/
def localDay (t : Time) : Int := t.localSec / 86400

/-- The method `t.Nanosecond()`. -/
def Nanosecond (t : Time) : Int := t.ns % Second

/-- The method `t.Hour()`. -/
def Hour (t : Time) : Int := t.localSec % 86400 / 3600

/-- The method `t.Minute()`. -/
def Minute (t : Time) : Int := t.localSec % 3600 / 60

/-- The method `t.Second()`. -/
def Second (t : Time) : Int := t.localSec % 60

/-- The method `t.Weekday()`, Sunday = 0; day 0 (`0001-01-01`) is a Monday. -/
def Weekday (t : Time) : Int := (t.localDay + 1) % 7

end Time

/-- The year and the zero-based day of the year of day number `d` (the first
half of `absDate` in the `time` package): 400-, 100-, 4- and 1-year cycles. -/
def yearDay (d : Int) : Int × Int :=
  let n400 := d / 146097
  let d := d - 146097 * n400
  let n100 := d / 36524
  let n100 := n100 - n100 / 4
  let d := d - 36524 * n100
  let n4 := d / 1461
  let d := d - 1461 * n4
  let n := d / 365
  let n := n - n / 4
  let d := d - 365 * n
  (400 * n400 + 100 * n100 + 4 * n4 + n + 1, d)

/-- The month (1 = January) and the day of the month of the zero-based day
`yday` of `year` (the second half of `absDate`). -/
def monthDay (year yday : Int) : Int × Int :=
  if isLeap year && decide (yday = 31 + 29 - 1) then (2, 29)
  else
    let day := if isLeap year && decide (yday > 31 + 29 - 1) then yday - 1 else yday
    let month := day / 31
    let fin := daysBefore (month + 1)
    if day ≥ fin then (month + 2, day - fin + 1)
    else (month + 1, day - daysBefore month + 1)

namespace Time

/-- The method `t.Year()`. -/
def Year (t : Time) : Int := (yearDay t.localDay).1

/-- The method `t.Month()`, 1 = January. -/
def Month (t : Time) : Int := (monthDay (yearDay t.localDay).1 (yearDay t.localDay).2).1

/-- The method `t.Day()`. -/
def Day (t : Time) : Int := (monthDay (yearDay t.localDay).1 (yearDay t.localDay).2).2

/-- The method `t.AddDate(years, months, days)`. -/
def AddDate (t : Time) (years months days : Int) : Time :=
  Date (t.Year + years) (t.Month + months) (t.Day + days) t.Hour t.Minute t.Second
    t.Nanosecond t.loc

end Time


/-- First day number of the month with index `i = 12 * year + (month - 1)`. -/
def monthStart (i : Int) : Int := monthStartDay (i / 12) (i % 12)

/-- Index `12 * year + (month - 1)` of the calendar month containing day `d`. -/
def monthIndex (d : Int) : Int :=
  12 * (yearDay d).1 + ((monthDay (yearDay d).1 (yearDay d).2).1 - 1)

/-! ## Formatting instants -/

/-- Go's `appendInt(b, x, width)`: the decimal digits of `x`, zero-padded on the
left to at least `width` digits, after a minus sign when `x` is negative. -/
def appendInt (x : Int) (width : Nat) : List Char :=
  let ds := Nat.toDigits 10 x.natAbs
  (if x < 0 then ['-'] else []) ++ List.replicate (width - ds.length) '0' ++ ds

/-- The layout interpreter of `t.Format`, for the layout elements the log
rotator uses: `2006` year, `01` month, `02` day, `15` hour, `04` minute, `05` second; every
other character is copied. -/
def formatChars (t : Time) : List Char → List Char
  | '2' :: '0' :: '0' :: '6' :: r => appendInt t.Year 4 ++ formatChars t r
  | '0' :: '1' :: r => appendInt t.Month 2 ++ formatChars t r
  | '0' :: '2' :: r => appendInt t.Day 2 ++ formatChars t r
  | '1' :: '5' :: r => appendInt t.Hour 2 ++ formatChars t r
  | '0' :: '4' :: r => appendInt t.Minute 2 ++ formatChars t r
  | '0' :: '5' :: r => appendInt t.Second 2 ++ formatChars t r
  | c :: r => c :: formatChars t r
  | [] => []

/-- The method `t.Format(layout)`. -/
def Time.Format (t : Time) (layout : String) : String :=
  String.mk (formatChars t layout.toList)

/-- One hexadecimal digit, lower case. -/
def hexChar (n : Nat) : Char :=
  if n % 16 < 10 then Char.ofNat (48 + n % 16) else Char.ofNat (87 + n % 16)

/-- The last `width` hexadecimal digits of `n`, most significant first. -/
def hexDigits : Nat → Nat → List Char
  | 0, _ => []
  | width + 1, n => hexDigits width (n / 16) ++ [hexChar n]

/-- The call `hex.EncodeToString(rnd)` on the 8 random bytes whose big-endian
value is `n`: 16 hexadecimal characters. -/
def hexEncode (n : Nat) : String := String.mk (hexDigits 16 n)

/-! ## Paths -/

/-- The function `filepath.Split`: the directory part up to and including the
final slash, and the file part after it. -/
def Split (path : String) : String × String :=
  let cs := path.toList
  let file := (cs.reverse.takeWhile (fun c => c != '/')).reverse
  (String.mk (cs.take (cs.length - file.length)), String.mk file)

/-- The function `filepath.Ext` on a file name without slashes: the suffix
starting at the final dot, or the empty string. -/
def Ext (name : String) : String :=
  let cs := name.toList
  if cs.contains '.' then
    String.mk ('.' :: (cs.reverse.takeWhile (fun c => c != '.')).reverse)
  else ""

/-- The call `filepath.Join(dir, name)` for a directory part produced by
`Split` on a clean path (empty, or ending in its only trailing slash). -/
def Join (dir name : String) : String := dir ++ name

/-! ## The file system and the environment of one call -/

/-- An open `*os.File`: the standard-error stream, or a regular file reached
through the path it was opened at. -/
inductive File where
  | stderr : File
  | named (path : String) : File
deriving DecidableEq, Repr

/-- The method `f.Name()`. -/
def File.Name : File → String
  | File.stderr => "/dev/stderr"
  | File.named p => p

/-- The regular files of the file system, each with its size in bytes. -/
abbrev FS := List (String × Nat)

namespace FS

/-- Does a file exist at `path`. -/
def has (fs : FS) (path : String) : Bool := fs.any (fun f => f.1 == path)

/-- The size of the file at `path`, 0 when there is none. -/
def size (fs : FS) (path : String) : Nat :=
  match fs.find? (fun f => f.1 == path) with
  | some f => f.2
  | none => 0

/-- Create an empty file at `path` unless one exists (`O_CREATE`). -/
def create (fs : FS) (path : String) : FS :=
  if fs.has path then fs else fs ++ [(path, 0)]

/-- Append `n` bytes to the file at `path`. -/
def append (fs : FS) (path : String) (n : Nat) : FS :=
  fs.map (fun f => if f.1 == path then (f.1, f.2 + n) else f)

/-- Remove the file at `path` (`os.Remove`). -/
def remove (fs : FS) (path : String) : FS := fs.filter (fun f => f.1 != path)

/-- Rename the file at `old` to `new`, replacing a file already there
(`os.Rename`). -/
def rename (fs : FS) (old new : String) : FS :=
  (fs.remove new).map (fun f => if f.1 == old then (new, f.2) else f)

end FS

/-- What the world outside the stream answers during one call: the clock, the
random source, which system calls fail, and the size the compressor produces. -/
structure Env where
  /-- The instant `time.Now()` returns, in nanoseconds since `0001-01-01 UTC`. -/
  now : Int
  /-- The 8 bytes `rand.Read` delivers, as a big-endian number. -/
  rnd : Nat
  /-- The call `os.OpenFile` on the log file fails. -/
  openFails : Bool
  /-- The call `os.Stat` on the log file just opened fails. -/
  statFails : Bool
  /-- The call `l.file.Close()` in `close` fails. -/
  closeFails : Bool
  /-- The call `os.Stat` on the rotation target fails with an error other
  than "does not exist". -/
  statTargetFails : Bool
  /-- The call `os.Rename` fails. -/
  renameFails : Bool
  /-- The call `l.file.Write(data)` stops after this many bytes with an error;
  `none` is a complete write. -/
  short : Option Nat
  /-- The size of the gzip stream `compress` writes. -/
  gzSize : Nat
deriving Repr

/-- An environment in which every system call succeeds. -/
def Env.ok (now : Int) (rnd : Nat) : Env :=
  ⟨now, rnd, false, false, false, false, false, none, 0⟩

/-- The errors the package reports. -/
inductive Error where
  /-- The message `write: no file open`. -/
  | noFileOpen
  /-- The message `write %s: file already closed`. -/
  | alreadyClosed (name : String)
  /-- The message `can't open log file %s`. -/
  | cantOpen (fileName : String)
  /-- The value `os.ErrInvalid`: a method was called on a nil `*os.File`. -/
  | invalid
  /-- An error of the operating system passed through unchanged. -/
  | io
  /-- The message `can't rotate closed log file`. -/
  | rotateClosed
  /-- The message `rotated log file %s already exists`. -/
  | rotatedExists (fn : String)
  /-- The message `can't stat rotation file %s`. -/
  | cantStat (fn : String)
  /-- The message `can't rotate log file %s to %s`. -/
  | cantRename (fileName fn : String)
  /-- The run-time panic of dereferencing a nil `l.start`. -/
  | nilStart
  /-- The message `can't open uncompresed log file %s`. -/
  | cantOpenRetired (fn : String)
  /-- The message `backup overrun, more than 1000 backup files for %s`. -/
  | backupOverrun (gzfn : String)
deriving DecidableEq, Repr

/-! ## The stream -/

/-- The struct `RotateFile` (the mutex apart). -/
structure RotateFile where
  fileName : String
  dirName : String
  baseName : String
  ext : String
  maxAge : Int
  maxSize : Int
  maxBackups : Int
  timeZone : Location
  curSize : Int
  file : Option File
  start : Option Time
  nextStart : Time
  closed : Bool
deriving DecidableEq, Repr

/-- The function `Open`; `localZone` is the ambient `time.Local`. -/
def Open (localZone : Location) (fn : String) (maxAge maxSize count : Int) : RotateFile :=
  let dn := (Split fn).1
  let bn := (Split fn).2
  let ext := Ext bn
  let bn := String.mk (bn.toList.take (bn.toList.length - ext.toList.length))
  { fileName := fn, dirName := dn, baseName := bn, ext := ext, maxAge := maxAge,
    maxSize := maxSize, maxBackups := count, timeZone := localZone, curSize := 0,
    file := if fn = "" then some File.stderr else none,
    start := none, nextStart := Time.zero, closed := false }

/-- The local constant `month` of `nextRotate`: 30 days. -/
def month : Int := 30 * 24 * Hour

/-- The local constant `week` of `nextRotate`: 7 days. -/
def week : Int := 7 * 24 * Hour

/-- The local constant `day` of `nextRotate`. -/
def day : Int := 24 * Hour

/-- The loop `for mn > 12 { mn -= 12; y += 1 }`; it ends within `mn` rounds. -/
def monthLoop : Nat → Int → Int → Int × Int
  | 0, mn, y => (mn, y)
  | fuel + 1, mn, y => if mn > 12 then monthLoop fuel (mn - 12) (y + 1) else (mn, y)

/-- The loop `for hr >= 24 { next = next.AddDate(0, 0, 1); hr -= 24 }`; it ends
within `hr` rounds. -/
def hourLoop : Nat → Time → Int → Time × Int
  | 0, next, hr => (next, hr)
  | fuel + 1, next, hr =>
    if hr ≥ 24 then hourLoop fuel (next.AddDate 0 0 1) (hr - 24) else (next, hr)

namespace RotateFile

/-- The method `nextRotate`: the boundary that ends the bucket started at
`l.start`. -/
def nextRotate (l : RotateFile) : Time :=
  match l.start with
  | none => Time.zero
  | some start =>
    let now := start.In l.timeZone
    let dur := if l.maxAge < Minute then day else l.maxAge
    if rem dur month = 0 then
      let r := monthLoop (now.Month + quo dur month).toNat (now.Month + quo dur month) now.Year
      Date r.2 r.1 1 0 0 0 0 l.timeZone
    else if rem dur week = 0 then
      let wn := quo dur week
      let next := Date now.Year now.Month now.Day 12 0 0 0 l.timeZone
      let next := next.AddDate 0 0 (wn * 7 - next.Weekday)
      Date next.Year next.Month next.Day 0 0 0 0 l.timeZone
    else if rem dur day = 0 then
      let next := Date now.Year now.Month now.Day 12 0 0 0 l.timeZone
      let next := next.AddDate 0 0 (quo dur day)
      Date next.Year next.Month next.Day 0 0 0 0 l.timeZone
    else if rem dur Hour = 0 then
      let hn := quo dur Hour
      let hr := quo (now.Hour + hn) hn * hn
      let next := Date now.Year now.Month now.Day 12 0 0 0 l.timeZone
      let r := hourLoop hr.toNat next hr
      Date r.1.Year r.1.Month r.1.Day r.2 0 0 0 l.timeZone
    else
      let mn := quo dur Minute
      let next := now.Add (mn * Minute)
      Date next.Year next.Month next.Day next.Hour (mn * quo next.Minute mn) 0 0 l.timeZone

/-- The method `timestampFormat`. -/
def timestampFormat (l : RotateFile) : String :=
  if l.maxAge ≥ 30 * 24 * Hour then "200601"
  else if l.maxAge ≥ 24 * Hour then "20060102"
  else if l.maxAge ≥ Hour then "20060102T15"
  else "20060102T1504"

/-- The method `needsRotate`: the decision, and the stream with the bucket
start recorded when there was none. -/
def needsRotate (l : RotateFile) (now : Time) (size : Int) : Bool × RotateFile :=
  let l := if l.start.isNone then
      let l1 := { l with start := some now }
      { l1 with nextStart := l1.nextRotate }
    else l
  if !now.Before l.nextStart then (true, l)
  else if decide (l.maxSize > 0) && decide (add64 l.curSize size > l.maxSize) then (true, l)
  else (false, l)

/-- The method `SetMaxSize`. -/
def SetMaxSize (l : RotateFile) (size : Int) : RotateFile := { l with maxSize := size }

/-- The method `SetMaxAge`. -/
def SetMaxAge (l : RotateFile) (age : Int) : RotateFile :=
  let l1 := { l with maxAge := age }
  { l1 with nextStart := l1.nextRotate }

/-- The method `SetMaxBackups`. -/
def SetMaxBackups (l : RotateFile) (count : Int) : RotateFile := { l with maxBackups := count }

/-- The method `SetTimeZone`. -/
def SetTimeZone (l : RotateFile) (tz : Location) : RotateFile :=
  let l1 := { l with timeZone := tz }
  match l1.start with
  | none => l1
  | some start =>
    let l2 := { l1 with start := some (start.In tz) }
    { l2 with nextStart := l2.nextRotate }

/-- The method `Name`. -/
def Name (l : RotateFile) : String :=
  match l.file with
  | some f => f.Name
  | none => l.fileName

end RotateFile

/-! ## The stream together with its surroundings -/

/-- The stream, the file system it writes to, and the `compressAndCleanup`
goroutines that `rotate` has started and that have not run yet, each with its
arguments `(fn, ts)`. -/
structure Sys where
  l : RotateFile
  fs : FS
  spawned : List (String × String)
deriving DecidableEq, Repr

/-- The method `f.Write(b)` of `*os.File` on a possibly nil handle, for a
buffer of `len` bytes: the count and error returned, and the file system. -/
def fileWrite (f : Option File) (fs : FS) (short : Option Nat) (len : Nat) :
    (Nat × Option Error) × FS :=
  match f with
  | none => ((0, some Error.invalid), fs)
  | some h =>
    let r : Nat × Option Error :=
      match short with
      | none => (len, none)
      | some k => (min k len, some Error.io)
    match h with
    | File.stderr => (r, fs)
    | File.named p => (r, fs.append p r.1)

namespace Sys

/-- The method `close`. -/
def close (s : Sys) (e : Env) : Option Error × Sys :=
  if s.l.closed then (none, s)
  else
    let s1 := { s with l := { s.l with closed := true } }
    if s1.l.fileName ≠ "" ∧ s1.l.file.isSome ∧ e.closeFails then (some Error.io, s1)
    else (none, { s1 with l := { s1.l with file := none } })

/-- The method `Close`. -/
def Close (s : Sys) (e : Env) : Option Error × Sys := s.close e

/-- The method `open` of the stream. -/
def openLog (s : Sys) (e : Env) : Option Error × Sys :=
  if s.l.fileName = "" then (none, { s with l := { s.l with file := some File.stderr } })
  else if e.openFails then
    (some (Error.cantOpen s.l.fileName), { s with l := { s.l with file := none } })
  else
    let fs := s.fs.create s.l.fileName
    let size : Int := if e.statFails then 0 else (fs.size s.l.fileName : Int)
    (none, { s with
      l := { s.l with file := some (File.named s.l.fileName), curSize := size }, fs := fs })

/-- The method `rotateOnly`: the retired path, the timestamp label and the
error returned, and the state afterwards. -/
def rotateOnly (s : Sys) (e : Env) : (String × String × Option Error) × Sys :=
  if s.l.closed || s.l.file.isNone then (("", "", some Error.rotateClosed), s)
  else if s.l.fileName = "" then (("", "", none), s)
  else
    let marker := "rotating " ++ s.l.fileName ++ "\n"
    let fs := (fileWrite s.l.file s.fs none marker.utf8ByteSize).2
    let s := { s with l := { s.l with file := none }, fs := fs }
    match s.l.start with
    | none => (("", "", some Error.nilStart), s)
    | some start =>
      let ts := start.Format s.l.timestampFormat
      let fn := Join s.l.dirName
        (s.l.baseName ++ "-" ++ ts ++ "_x" ++ hexEncode e.rnd ++ s.l.ext)
      if e.statTargetFails then (("", "", some (Error.cantStat fn)), s)
      else if s.fs.has fn then (("", "", some (Error.rotatedExists fn)), s)
      else if e.renameFails then (("", "", some (Error.cantRename s.l.fileName fn)), s)
      else
        ((fn, ts, none),
          { s with l := { s.l with start := none }, fs := s.fs.rename s.l.fileName fn })

/-- The method `rotate`: `rotateOnly`, then `go l.compressAndCleanup(fn, ts)`. -/
def rotate (s : Sys) (e : Env) : Option Error × Sys :=
  let r := s.rotateOnly e
  match r.1.2.2 with
  | some err => (some err, r.2)
  | none =>
    if r.1.1 ≠ "" then (none, { r.2 with spawned := r.2.spawned ++ [(r.1.1, r.1.2.1)] })
    else (none, r.2)

/-- The method `Rotate`. -/
def Rotate (s : Sys) (e : Env) : Option Error × Sys := s.rotate e

/-- The method `Write`, for a payload of `data.length` bytes: the count and the
error returned, and the state afterwards. -/
def Write (s : Sys) (e : Env) (data : List UInt8) : (Int × Option Error) × Sys :=
  if s.l.closed then
    match s.l.file with
    | none => ((-1, some Error.noFileOpen), s)
    | some f => ((-1, some (Error.alreadyClosed f.Name)), s)
  else
    let r := if s.l.file.isNone then s.openLog e else (none, s)
    match r.1 with
    | some err => ((-1, some err), r.2)
    | none =>
      let s := r.2
      let now := (Time.mk e.now UTC).In s.l.timeZone
      let size : Int := data.length
      let nr := s.l.needsRotate now size
      let s := { s with l := nr.2 }
      let rr := if nr.1 then s.rotate e else (none, s)
      match rr.1 with
      | some err => ((-1, some err), rr.2)
      | none =>
        let s := rr.2
        let w := fileWrite s.l.file s.fs e.short data.length
        let n := w.1.1
        let s := { s with fs := w.2 }
        let s := if n > 0 then { s with l := { s.l with curSize := add64 s.l.curSize n } } else s
        ((n, w.1.2), s)

end Sys

/-! ## Compression and the retention sweep -/

/-- The elements of the glob pattern `cleanup` builds: a literal character,
`*` (any run of characters other than the separator) and `[0-9]`. -/
inductive Pat where
  | lit (c : Char) : Pat
  | star : Pat
  | digit : Pat
deriving DecidableEq, Repr

/-- Does `f` accept some suffix of the string reached by skipping characters
other than the separator. -/
def anySuffix (f : List Char → Bool) : List Char → Bool
  | [] => f []
  | c :: cs => f (c :: cs) || (c != '/' && anySuffix f cs)

/-- The function `filepath.Match` for the pattern elements of `Pat`. -/
def globMatch : List Pat → List Char → Bool
  | [], s => s.isEmpty
  | Pat.star :: ps, s => anySuffix (globMatch ps) s
  | Pat.lit a :: ps, c :: cs => a == c && globMatch ps cs
  | Pat.digit :: ps, c :: cs => ('0' ≤ c && c ≤ '9') && globMatch ps cs
  | Pat.lit _ :: _, [] => false
  | Pat.digit :: _, [] => false

/-- The call `filepath.Glob(pat)`: the existing paths that match. -/
def Glob (fs : FS) (pat : List Pat) : List String :=
  (fs.map (fun f => f.1)).filter (fun p => globMatch pat p.toList)

/-- Go's `<` on strings, on their characters: the lexical order of the bytes,
which for UTF-8 text is the lexical order of the code points. -/
def stringLess : List Char → List Char → Bool
  | _, [] => false
  | [], _ :: _ => true
  | a :: as, b :: bs =>
    decide (a.toNat < b.toNat) || (decide (a.toNat = b.toNat) && stringLess as bs)

/-- Insert a string into a sorted list, before the first greater one. -/
def insertString (a : String) : List String → List String
  | [] => [a]
  | b :: bs => if stringLess a.toList b.toList then a :: b :: bs else b :: insertString a bs

/-- The call `sort.Strings(fns)`: the names in increasing lexical order. -/
def sortStrings : List String → List String
  | [] => []
  | a :: as => insertString a (sortStrings as)

/-- The first of the names `name i, name (i+1), ...`, among `n` of them, at
which no file exists: the probing loop of `compress`. -/
def firstFree (fs : FS) (name : Nat → String) : Nat → Nat → Option String
  | 0, _ => none
  | n + 1, i => if fs.has (name i) then firstFree fs name n (i + 1) else some (name i)

namespace Sys

/-- The backup name `compress` probes for sequence number `i`:
`dir/base-ts_NNN.ext.gz`. -/
def backupName (s : Sys) (ts : String) (i : Nat) : String :=
  Join s.l.dirName
    (s.l.baseName ++ "-" ++ ts ++ "_" ++ String.mk (appendInt i 3) ++ s.l.ext ++ ".gz")

/-- The glob pattern of `cleanup`: `dir/base-*_[0-9][0-9][0-9].ext.gz`, the
characters of the directory, base name and extension standing for themselves. -/
def backupPattern (s : Sys) : List Pat :=
  (s.l.dirName ++ s.l.baseName ++ "-").toList.map Pat.lit
    ++ [Pat.star, Pat.lit '_', Pat.digit, Pat.digit, Pat.digit]
    ++ (s.l.ext ++ ".gz").toList.map Pat.lit

/-- The method `compress`: the backup path and the error returned, and the
state afterwards. The retired file must exist to be opened; the exclusive
create of a free name, the gzip stream and the final remove succeed. -/
def compress (s : Sys) (e : Env) (fn ts : String) : (String × Option Error) × Sys :=
  if !s.fs.has fn then (("", some (Error.cantOpenRetired fn)), s)
  else
    match firstFree s.fs (s.backupName ts) 1000 0 with
    | none => (("", some (Error.backupOverrun (s.backupName ts 999))), s)
    | some gzfn =>
      let fs := (s.fs.create gzfn).append gzfn e.gzSize
      ((gzfn, none), { s with fs := fs.remove fn })

/-- The method `cleanup`. -/
def cleanup (s : Sys) : Option Error × Sys :=
  if s.l.maxBackups ≤ 0 then (none, s)
  else
    let fns := Glob s.fs s.backupPattern
    if (fns.length : Int) ≤ s.l.maxBackups then (none, s)
    else
      let fns := sortStrings fns
      let old := fns.take (fns.length - s.l.maxBackups.toNat)
      (none, { s with fs := old.foldl FS.remove s.fs })

/-- The method `compressAndCleanup`. -/
def compressAndCleanup (s : Sys) (e : Env) (fn ts : String) : Option Error × Sys :=
  let r := s.compress e fn ts
  match r.1.2 with
  | some err => (some err, r.2)
  | none => r.2.cleanup

/-- Run the oldest goroutine that `rotate` has started, if there is one. -/
def background (s : Sys) (e : Env) : Sys :=
  match s.spawned with
  | [] => s
  | t :: ts => ({ s with spawned := ts }.compressAndCleanup e t.1 t.2).2

end Sys

/-! ## Runs of the public operations -/

/-- The public operations of a stream, and `background`, the scheduler
running one started goroutine. -/
inductive Op where
  | write (data : List UInt8) : Op
  | rotate : Op
  | close : Op
  | setMaxSize (size : Int) : Op
  | setMaxAge (age : Int) : Op
  | setMaxBackups (count : Int) : Op
  | setTimeZone (tz : Location) : Op
  | background : Op
deriving Repr

/-- The state after one operation in environment `e`. -/
def step (s : Sys) (e : Env) : Op → Sys
  | Op.write data => (s.Write e data).2
  | Op.rotate => (s.Rotate e).2
  | Op.close => (s.Close e).2
  | Op.setMaxSize size => { s with l := s.l.SetMaxSize size }
  | Op.setMaxAge age => { s with l := s.l.SetMaxAge age }
  | Op.setMaxBackups count => { s with l := s.l.SetMaxBackups count }
  | Op.setTimeZone tz => { s with l := s.l.SetTimeZone tz }
  | Op.background => s.background e

/-- The state after a sequence of operations, each in its environment. -/
def run (s : Sys) : List (Op × Env) → Sys
  | [] => s
  | oe :: rest => run (step s oe.2 oe.1) rest

/-- The state right after `Open`, on the file system `fs`. -/
def start (localZone : Location) (fn : String) (maxAge maxSize count : Int) (fs : FS) : Sys :=
  ⟨Open localZone fn maxAge maxSize count, fs, []⟩

/-! ## Fixed-offset zones -/

theorem lookup_fixed (z : Location) (hz : z.transitions = []) (sec : Int) :
    z.lookup sec = (z.offset, none, none) := by
  simp only [Location.lookup, hz, lookupFrom]

/-- In a fixed-offset zone `time.Date` subtracts the offset from the local
clock reading. -/
theorem Date_fixed (year month day hour min sec nsec : Int) (z : Location)
    (hz : z.transitions = []) :
    Date year month day hour min sec nsec z =
      ⟨(((monthStartDay (year + (month - 1) / 12) ((month - 1) % 12) + (day - 1)) * 86400 +
        (hour * 3600 + min * 60 + sec)) - z.offset) * Second + nsec, z⟩ := by
  have hS : Second = 1000000000 := by decide
  simp only [Date, lookup_fixed z hz, Bool.or_self, Bool.false_eq_true, if_false, ite_self]
  congr 1
  split_ifs with h0
  · rw [hS, ← h0]
    omega
  · rw [hS]
    omega

/-- In a fixed-offset zone the local clock is the instant moved by the offset. -/
theorem localSec_fixed (t : Time) (hz : t.loc.transitions = []) :
    t.localSec = t.ns / Second + t.loc.offset := by
  simp only [Time.localSec, lookup_fixed t.loc hz]

/-! ## Calendar lemmas -/

theorem yearDay_arith (d b c f g : Int) (hb : b = d / 146097)
    (hc : c = (d - 146097 * b) / 36524)
    (hf : f = (d - 146097 * b - 36524 * (c - c / 4)) / 1461)
    (hg : g = (d - 146097 * b - 36524 * (c - c / 4) - 1461 * f) / 365) :
    ∃ y r : Int, y = 400 * b + 100 * (c - c / 4) + 4 * f + (g - g / 4) ∧
      r = d - 146097 * b - 36524 * (c - c / 4) - 1461 * f - 365 * (g - g / 4) ∧
      365 * y + y / 4 - y / 100 + y / 400 + r = d ∧ 0 ≤ r ∧
      (r < 365 ∨ (r = 365 ∧ (y + 1) % 4 = 0 ∧ ((y + 1) % 100 ≠ 0 ∨ (y + 1) % 400 = 0))) := by
  refine ⟨_, _, rfl, rfl, ?_⟩
  have hc' : c = 0 ∨ c = 1 ∨ c = 2 ∨ c = 3 ∨ c = 4 := by omega
  have hg' : g = 0 ∨ g = 1 ∨ g = 2 ∨ g = 3 ∨ g = 4 := by
    rcases hc' with h | h | h | h | h <;> subst h <;> omega
  rcases hc' with h | h | h | h | h <;> rcases hg' with h' | h' | h' | h' | h' <;>
    subst h <;> subst h' <;> norm_num <;> omega

theorem yearDay_spec (d : Int) :
    daysSinceEpoch (yearDay d).1 + (yearDay d).2 = d ∧ 0 ≤ (yearDay d).2 ∧
      (yearDay d).2 < 365 + (if isLeap (yearDay d).1 then 1 else 0) := by
  obtain ⟨y, r, hy, hr, h1, h2, h3⟩ := yearDay_arith d _ _ _ _ rfl rfl rfl rfl
  have e1 : (yearDay d).1 = y + 1 := by simp only [yearDay]; omega
  have e2 : (yearDay d).2 = r := by simp only [yearDay]; omega
  rw [e1, e2]
  clear e1 e2 hy hr
  simp only [daysSinceEpoch, isLeap]
  refine ⟨by omega, h2, ?_⟩
  split_ifs with h
  · omega
  · simp at h
    omega


theorem daysBefore_table :
    daysBefore 0 = 0 ∧ daysBefore 1 = 31 ∧ daysBefore 2 = 59 ∧ daysBefore 3 = 90 ∧
      daysBefore 4 = 120 ∧ daysBefore 5 = 151 ∧ daysBefore 6 = 181 ∧ daysBefore 7 = 212 ∧
      daysBefore 8 = 243 ∧ daysBefore 9 = 273 ∧ daysBefore 10 = 304 ∧ daysBefore 11 = 334 ∧
      daysBefore 12 = 365 := by
  refine ⟨?_, ?_, ?_, ?_, ?_, ?_, ?_, ?_, ?_, ?_, ?_, ?_, ?_⟩ <;> rfl

theorem monthDay_noleap (r : Int) (h0 : 0 ≤ r) (h1 : r < 365) (y : Int)
    (hL : isLeap y = false) :
    ∃ q d : Int, monthDay y r = (q + 1, d) ∧ 0 ≤ q ∧ q ≤ 11 ∧ 1 ≤ d ∧
      daysBefore q + (d - 1) = r ∧ r < daysBefore (q + 1) := by
  obtain ⟨t0, t1, t2, t3, t4, t5, t6, t7, t8, t9, t10, t11, t12⟩ := daysBefore_table
  have hq : r / 31 = 0 ∨ r / 31 = 1 ∨ r / 31 = 2 ∨ r / 31 = 3 ∨ r / 31 = 4 ∨ r / 31 = 5 ∨
      r / 31 = 6 ∨ r / 31 = 7 ∨ r / 31 = 8 ∨ r / 31 = 9 ∨ r / 31 = 10 ∨ r / 31 = 11 := by
    omega
  simp only [monthDay, hL, Bool.false_and, Bool.false_eq_true, if_false]
  rcases hq with h | h | h | h | h | h | h | h | h | h | h | h <;>
    simp only [h, Int.reduceAdd, t0, t1, t2, t3, t4, t5, t6, t7, t8, t9, t10, t11, t12] <;>
    split_ifs with hc
  all_goals first
    | exact ⟨0, _, rfl, by simp only [Int.reduceAdd, t0, t1]; omega⟩
    | exact ⟨1, _, rfl, by simp only [Int.reduceAdd, t1, t2]; omega⟩
    | exact ⟨2, _, rfl, by simp only [Int.reduceAdd, t2, t3]; omega⟩
    | exact ⟨3, _, rfl, by simp only [Int.reduceAdd, t3, t4]; omega⟩
    | exact ⟨4, _, rfl, by simp only [Int.reduceAdd, t4, t5]; omega⟩
    | exact ⟨5, _, rfl, by simp only [Int.reduceAdd, t5, t6]; omega⟩
    | exact ⟨6, _, rfl, by simp only [Int.reduceAdd, t6, t7]; omega⟩
    | exact ⟨7, _, rfl, by simp only [Int.reduceAdd, t7, t8]; omega⟩
    | exact ⟨8, _, rfl, by simp only [Int.reduceAdd, t8, t9]; omega⟩
    | exact ⟨9, _, rfl, by simp only [Int.reduceAdd, t9, t10]; omega⟩
    | exact ⟨10, _, rfl, by simp only [Int.reduceAdd, t10, t11]; omega⟩
    | exact ⟨11, _, rfl, by simp only [Int.reduceAdd, t11, t12]; omega⟩
    | (exfalso; omega)

theorem monthDay_leap (r : Int) (h0 : 0 ≤ r) (h1 : r < 366) (y : Int)
    (hL : isLeap y = true) :
    ∃ q d : Int, monthDay y r = (q + 1, d) ∧ 0 ≤ q ∧ q ≤ 11 ∧ 1 ≤ d ∧
      daysBefore q + (if 2 ≤ q then 1 else 0) + (d - 1) = r ∧
      r < daysBefore (q + 1) + (if 1 ≤ q then 1 else 0) := by
  obtain ⟨t0, t1, t2, t3, t4, t5, t6, t7, t8, t9, t10, t11, t12⟩ := daysBefore_table
  by_cases h59 : r = 59
  · subst h59
    refine ⟨1, 29, ?_, by simp only [Int.reduceAdd, t1, t2]; omega⟩
    simp [monthDay, hL]
  by_cases hgt : r > 31 + 29 - 1
  · have hq : (r - 1) / 31 = 1 ∨ (r - 1) / 31 = 2 ∨ (r - 1) / 31 = 3 ∨
        (r - 1) / 31 = 4 ∨ (r - 1) / 31 = 5 ∨ (r - 1) / 31 = 6 ∨ (r - 1) / 31 = 7 ∨
        (r - 1) / 31 = 8 ∨ (r - 1) / 31 = 9 ∨ (r - 1) / 31 = 10 ∨ (r - 1) / 31 = 11 := by
      omega
    simp only [monthDay, hL, Bool.true_and, decide_eq_true_eq, h59, if_false, hgt, if_true]
    rcases hq with h | h | h | h | h | h | h | h | h | h | h <;>
      simp only [h, Int.reduceAdd, t0, t1, t2, t3, t4, t5, t6, t7, t8, t9, t10, t11, t12] <;>
      split_ifs with hc
    all_goals first
      | exact ⟨1, _, rfl, by simp only [Int.reduceAdd, t1, t2]; omega⟩
      | exact ⟨2, _, rfl, by simp only [Int.reduceAdd, t2, t3]; omega⟩
      | exact ⟨3, _, rfl, by simp only [Int.reduceAdd, t3, t4]; omega⟩
      | exact ⟨4, _, rfl, by simp only [Int.reduceAdd, t4, t5]; omega⟩
      | exact ⟨5, _, rfl, by simp only [Int.reduceAdd, t5, t6]; omega⟩
      | exact ⟨6, _, rfl, by simp only [Int.reduceAdd, t6, t7]; omega⟩
      | exact ⟨7, _, rfl, by simp only [Int.reduceAdd, t7, t8]; omega⟩
      | exact ⟨8, _, rfl, by simp only [Int.reduceAdd, t8, t9]; omega⟩
      | exact ⟨9, _, rfl, by simp only [Int.reduceAdd, t9, t10]; omega⟩
      | exact ⟨10, _, rfl, by simp only [Int.reduceAdd, t10, t11]; omega⟩
      | exact ⟨11, _, rfl, by simp only [Int.reduceAdd, t11, t12]; omega⟩
      | (exfalso; omega)
  · have hq : r / 31 = 0 ∨ r / 31 = 1 := by omega
    simp only [monthDay, hL, Bool.true_and, decide_eq_true_eq, h59, if_false, hgt]
    rcases hq with h | h <;>
      simp only [h, Int.reduceAdd, t0, t1, t2] <;>
      split_ifs with hc
    all_goals first
      | exact ⟨0, _, rfl, by simp only [Int.reduceAdd, t0, t1]; omega⟩
      | exact ⟨1, _, rfl, by simp only [Int.reduceAdd, t1, t2]; omega⟩
      | (exfalso; omega)


theorem daysSinceEpoch_succ (y : Int) :
    daysSinceEpoch (y + 1) = daysSinceEpoch y + 365 + (if isLeap y then 1 else 0) := by
  simp only [daysSinceEpoch, isLeap]
  split_ifs with h
  · simp at h
    omega
  · simp at h
    omega

theorem monthStart_lt_succ (i : Int) : monthStart i < monthStart (i + 1) := by
  obtain ⟨t0, t1, t2, t3, t4, t5, t6, t7, t8, t9, t10, t11, t12⟩ := daysBefore_table
  have hq : i % 12 = 0 ∨ i % 12 = 1 ∨ i % 12 = 2 ∨ i % 12 = 3 ∨ i % 12 = 4 ∨ i % 12 = 5 ∨
      i % 12 = 6 ∨ i % 12 = 7 ∨ i % 12 = 8 ∨ i % 12 = 9 ∨ i % 12 = 10 ∨ i % 12 = 11 := by
    omega
  have hs := daysSinceEpoch_succ (i / 12)
  simp only [monthStart, monthStartDay]
  rcases hq with h | h | h | h | h | h | h | h | h | h | h | h
  all_goals
    have e1 : (i + 1) % 12 = (i % 12 + 1) % 12 := by omega
    have e2 : (i + 1) / 12 = i / 12 + (i % 12 + 1) / 12 := by omega
    rw [e1, e2, h]
    simp only [Int.reduceAdd, Int.reduceMod, Int.reduceDiv, add_zero, t0, t1, t2, t3, t4, t5, t6,
      t7, t8, t9, t10, t11, t12]
    cases hL : isLeap (i / 12) <;> simp [hL] at hs ⊢ <;> omega

theorem monthStart_strictMono : StrictMono monthStart :=
  strictMono_int_of_lt_succ monthStart_lt_succ

theorem civil_aux (y r d : Int) (hy1 : daysSinceEpoch y + r = d) (hy2 : 0 ≤ r)
    (hy3 : r < 365 + (if isLeap y then 1 else 0)) :
    1 ≤ (monthDay y r).1 ∧ (monthDay y r).1 ≤ 12 ∧ 1 ≤ (monthDay y r).2 ∧
      monthStart (12 * y + ((monthDay y r).1 - 1)) + ((monthDay y r).2 - 1) = d ∧
      d < monthStart (12 * y + ((monthDay y r).1 - 1) + 1) := by
  obtain ⟨t0, t1, t2, t3, t4, t5, t6, t7, t8, t9, t10, t11, t12⟩ := daysBefore_table
  have hs := daysSinceEpoch_succ y
  simp only [monthStart, monthStartDay]
  cases hL : isLeap y
  · simp only [hL, Bool.false_eq_true, if_false, add_zero] at hy3 hs
    obtain ⟨q, dd, hm, hq0, hq1, hd1, hsum, hlt⟩ := monthDay_noleap r hy2 hy3 y hL
    rw [hm]
    simp only []
    have e1 : (12 * y + (q + 1 - 1)) / 12 = y := by omega
    have e2 : (12 * y + (q + 1 - 1)) % 12 = q := by omega
    have e3 : (12 * y + (q + 1 - 1) + 1) / 12 = y + (q + 1) / 12 := by omega
    have e4 : (12 * y + (q + 1 - 1) + 1) % 12 = (q + 1) % 12 := by omega
    rw [e1, e2, e3, e4, hL]
    refine ⟨by omega, by omega, hd1, by simp; omega, ?_⟩
    by_cases hq11 : q = 11
    · subst hq11
      simp only [Int.reduceAdd, Int.reduceDiv, Int.reduceMod, t0, t12] at hlt ⊢
      rw [hs]
      simp
      omega
    · have e5 : (q + 1) / 12 = 0 := by omega
      have e6 : (q + 1) % 12 = q + 1 := by omega
      rw [e5, e6, add_zero, hL]
      simp
      omega
  · simp only [hL, if_true] at hy3 hs
    obtain ⟨q, dd, hm, hq0, hq1, hd1, hsum, hlt⟩ := monthDay_leap r hy2 (by omega) y hL
    rw [hm]
    simp only []
    have e1 : (12 * y + (q + 1 - 1)) / 12 = y := by omega
    have e2 : (12 * y + (q + 1 - 1)) % 12 = q := by omega
    have e3 : (12 * y + (q + 1 - 1) + 1) / 12 = y + (q + 1) / 12 := by omega
    have e4 : (12 * y + (q + 1 - 1) + 1) % 12 = (q + 1) % 12 := by omega
    rw [e1, e2, e3, e4, hL]
    refine ⟨by omega, by omega, hd1, ?_, ?_⟩
    · simp only [Bool.true_and, decide_eq_true_eq]
      omega
    by_cases hq11 : q = 11
    · subst hq11
      simp only [Int.reduceAdd, Int.reduceDiv, Int.reduceMod, t0, t12] at hlt ⊢
      rw [hs]
      simp
      omega
    · have e5 : (q + 1) / 12 = 0 := by omega
      have e6 : (q + 1) % 12 = q + 1 := by omega
      rw [e5, e6, add_zero, hL]
      simp only [Bool.true_and, decide_eq_true_eq]
      split_ifs at hlt ⊢ <;> omega

/-- Every day number lies in the month its civil date names, and the civil
date counts back to the day number. -/
theorem civil_spec (d : Int) :
    1 ≤ (monthDay (yearDay d).1 (yearDay d).2).1 ∧
      (monthDay (yearDay d).1 (yearDay d).2).1 ≤ 12 ∧
      1 ≤ (monthDay (yearDay d).1 (yearDay d).2).2 ∧
      monthStart (monthIndex d) + ((monthDay (yearDay d).1 (yearDay d).2).2 - 1) = d ∧
      d < monthStart (monthIndex d + 1) := by
  obtain ⟨hy1, hy2, hy3⟩ := yearDay_spec d
  exact civil_aux _ _ d hy1 hy2 hy3

theorem monthIndex_eq_of_mem (d i : Int) (h1 : monthStart i ≤ d) (h2 : d < monthStart (i + 1)) :
    monthIndex d = i := by
  obtain ⟨_, _, hd, hsum, hlt⟩ := civil_spec d
  have hle : monthStart (monthIndex d) ≤ d := by omega
  rcases lt_trichotomy (monthIndex d) i with h | h | h
  · have := monthStart_strictMono.monotone (show monthIndex d + 1 ≤ i by omega)
    omega
  · exact h
  · have := monthStart_strictMono.monotone (show i + 1 ≤ monthIndex d by omega)
    omega


/-! ## The timestamp layout -/

/-- C10: `timestampFormat` returns `200601` from 30 days on, `20060102` from
one day on, `20060102T15` from one hour on and `20060102T1504` below; and for
periods `p ≤ q` the layout for `q` is a prefix of the layout for `p`. -/
theorem timestampFormat_tiers (p q : RotateFile) (h : p.maxAge ≤ q.maxAge) :
    ((30 * 24 * Hour ≤ p.maxAge ∧ p.timestampFormat = "200601") ∨
      (24 * Hour ≤ p.maxAge ∧ p.maxAge < 30 * 24 * Hour ∧ p.timestampFormat = "20060102") ∨
      (Hour ≤ p.maxAge ∧ p.maxAge < 24 * Hour ∧ p.timestampFormat = "20060102T15") ∨
      (p.maxAge < Hour ∧ p.timestampFormat = "20060102T1504")) ∧
    q.timestampFormat.toList <+: p.timestampFormat.toList := by
  have hH : Hour = 3600000000000 := by decide
  simp only [RotateFile.timestampFormat, hH, ge_iff_le] at *
  constructor
  · split_ifs <;> simp <;> omega
  · split_ifs <;> first | decide | (exfalso; omega)

/-- C10, at a 15-minute and a 90-day stream: minute layout, and the month
layout of the longer period is a prefix of it. -/
theorem timestampFormat_tiers_witness :
    (Open UTC "" (15 * Minute) 1024 2).maxAge ≤ (Open UTC "" (90 * 24 * Hour) 1024 2).maxAge ∧
      (Open UTC "" (15 * Minute) 1024 2).timestampFormat = "20060102T1504" ∧
      (Open UTC "" (90 * 24 * Hour) 1024 2).timestampFormat = "200601" ∧
      (Open UTC "" (90 * 24 * Hour) 1024 2).timestampFormat.toList <+:
        (Open UTC "" (15 * Minute) 1024 2).timestampFormat.toList :=
  ⟨by decide, by decide, by decide,
    (timestampFormat_tiers (Open UTC "" (15 * Minute) 1024 2)
      (Open UTC "" (90 * 24 * Hour) 1024 2) (by decide)).2⟩

/-! ## The rotation decision -/

/-- The `int64` sum is the mathematical sum whenever that fits in 64 bits, as
it does for the sizes of real files and payloads. -/
theorem add64_eq (a b : Int) (h0 : -2 ^ 63 ≤ a + b) (h1 : a + b < 2 ^ 63) :
    add64 a b = a + b := by
  simp only [add64]
  omega

theorem needsRotate_state (l : RotateFile) (now : Time) (size : Int) :
    (l.needsRotate now size).2 =
      (if l.start.isNone then
        { l with start := some now, nextStart := { l with start := some now }.nextRotate }
      else l) := by
  cases hs : l.start <;>
    simp only [RotateFile.needsRotate, hs, Option.isNone_none, Option.isNone_some, if_true,
      Bool.false_eq_true, if_false] <;>
    split_ifs <;> rfl

/-- C2: `needsRotate` first records `now` as the bucket start, with the boundary
computed from it, when no start is recorded; it then returns true exactly when
`now` is not before `nextStart`, or size limiting is on (`maxSize > 0`) and
`curSize + size` (an `int64` sum) exceeds `maxSize`. In particular it returns
false when `maxSize ≤ 0` and `now` is before `nextStart`. -/
theorem needsRotate_iff (l : RotateFile) (now : Time) (size : Int) :
    (l.needsRotate now size).2 =
        (if l.start.isNone then
          { l with start := some now, nextStart := { l with start := some now }.nextRotate }
        else l) ∧
      ((l.needsRotate now size).1 = true ↔
        (now.Before (l.needsRotate now size).2.nextStart = false ∨
          (0 < l.maxSize ∧ l.maxSize < add64 l.curSize size))) ∧
      (l.maxSize ≤ 0 → now.Before (l.needsRotate now size).2.nextStart = true →
        (l.needsRotate now size).1 = false) := by
  cases hs : l.start <;>
    simp only [RotateFile.needsRotate, hs, Option.isNone_none, Option.isNone_some, if_true,
      Bool.false_eq_true, if_false] <;>
    split_ifs with h1 h2 <;> simp_all

/-- C2, on the stream of `TestNeedsRotate` (one hour, 1024 bytes) with size
limiting switched off: half past the hour is before the boundary at the top of
the next hour, and no payload size triggers a rotation. -/
theorem needsRotate_iff_witness :
    (Open UTC "/tmp/a.log" Hour (-1) 2).maxSize ≤ 0 ∧
      Time.Before ⟨1800 * Second, UTC⟩
        ((Open UTC "/tmp/a.log" Hour (-1) 2).needsRotate ⟨1800 * Second, UTC⟩ 100).2.nextStart
        = true ∧
      ((Open UTC "/tmp/a.log" Hour (-1) 2).needsRotate ⟨1800 * Second, UTC⟩ 100).1 = false :=
  ⟨by decide, by decide,
    (needsRotate_iff (Open UTC "/tmp/a.log" Hour (-1) 2) ⟨1800 * Second, UTC⟩ 100).2.2
      (by decide) (by decide)⟩

/-! ## A closed stream -/

theorem Write_of_closed (s : Sys) (e : Env) (data : List UInt8) (h : s.l.closed = true) :
    ∃ err, s.Write e data = ((-1, some err), s) := by
  cases hf : s.l.file <;> simp [Sys.Write, h, hf]

theorem Rotate_of_closed (s : Sys) (e : Env) (h : s.l.closed = true) :
    ∃ err, s.Rotate e = (some err, s) := by
  simp [Sys.Rotate, Sys.rotate, Sys.rotateOnly, h]

/-- C7: on a closed stream `Close` returns no error, `Write` returns an error
for every payload and `Rotate` returns an error, and each of the three leaves
the stream (and the file system) as it was. -/
theorem closed_inert (s : Sys) (e : Env) (data : List UInt8) (h : s.l.closed = true) :
    s.Close e = (none, s) ∧
      (∃ err, s.Write e data = ((-1, some err), s)) ∧
      (∃ err, s.Rotate e = (some err, s)) := by
  refine ⟨?_, Write_of_closed s e data h, Rotate_of_closed s e h⟩
  simp [Sys.Close, Sys.close, h]

/-- C7, on a stream that was written to and then closed. -/
theorem closed_inert_witness :
    (run (start UTC "/tmp/a.log" Hour (-1) 1 [])
        [(Op.write [97, 98], Env.ok 0 0), (Op.close, Env.ok 1 0)]).l.closed = true ∧
      (run (start UTC "/tmp/a.log" Hour (-1) 1 [])
        [(Op.write [97, 98], Env.ok 0 0), (Op.close, Env.ok 1 0)]).Close (Env.ok 2 0) =
        (none, run (start UTC "/tmp/a.log" Hour (-1) 1 [])
          [(Op.write [97, 98], Env.ok 0 0), (Op.close, Env.ok 1 0)]) :=
  ⟨by decide,
    (closed_inert (run (start UTC "/tmp/a.log" Hour (-1) 1 [])
      [(Op.write [97, 98], Env.ok 0 0), (Op.close, Env.ok 1 0)]) (Env.ok 2 0) [120]
      (by decide)).1⟩

/-! ## A write that crosses the size limit -/

theorem FS.has_append (fs : FS) (p q : String) (n : Nat) :
    FS.has (FS.append fs p n) q = FS.has fs q := by
  induction fs with
  | nil => rfl
  | cons f fs ih =>
    simp only [FS.has, FS.append, List.map_cons, List.any_cons] at ih ⊢
    rw [ih]
    by_cases h : f.1 = p <;> simp [h]

theorem retired_ne_empty (d b ts r x : String) :
    Join d (b ++ "-" ++ ts ++ "_x" ++ r ++ x) ≠ "" := by
  intro h
  have := congrArg String.length h
  simp only [Join, String.length_append, String.length] at this
  simp at this

/-- C1 (what the code does): on an open, path-backed stream with `maxSize > 0`,
a payload with `curSize + len(payload) > maxSize`, the time boundary not
reached and every system call succeeding, `Write` performs the rotation (the
active file is renamed, the goroutine is started, the bucket start is cleared)
and then writes the payload through the nil handle the rotation left behind:
it returns `(0, os.ErrInvalid)`, the stream has no open handle, and `curSize`
keeps the size of the retired file. -/
theorem Write_crossing_maxSize (s : Sys) (e : Env) (data : List UInt8) (t : Time)
    (hclosed : s.l.closed = false) (hname : s.l.fileName ≠ "")
    (hfile : s.l.file = some (File.named s.l.fileName)) (hstart : s.l.start = some t)
    (htime : Time.Before ⟨e.now, s.l.timeZone⟩ s.l.nextStart = true)
    (hmax : 0 < s.l.maxSize) (hsize : s.l.maxSize < add64 s.l.curSize data.length)
    (hstat : e.statTargetFails = false) (hren : e.renameFails = false)
    (hfree : s.fs.has (Join s.l.dirName (s.l.baseName ++ "-" ++ t.Format s.l.timestampFormat
      ++ "_x" ++ hexEncode e.rnd ++ s.l.ext)) = false) :
    (s.Write e data).1 = (0, some Error.invalid) ∧
      (s.Write e data).2.l.file = none ∧
      (s.Write e data).2.l.curSize = s.l.curSize ∧
      (s.Write e data).2.l.start = none ∧
      (s.Write e data).2.spawned = s.spawned ++
        [(Join s.l.dirName (s.l.baseName ++ "-" ++ t.Format s.l.timestampFormat
          ++ "_x" ++ hexEncode e.rnd ++ s.l.ext), t.Format s.l.timestampFormat)] ∧
      (s.Write e data).2.fs =
        (s.fs.append s.l.fileName ("rotating " ++ s.l.fileName ++ "\n").utf8ByteSize).rename
          s.l.fileName (Join s.l.dirName (s.l.baseName ++ "-" ++ t.Format s.l.timestampFormat
            ++ "_x" ++ hexEncode e.rnd ++ s.l.ext)) := by
  have hnr : s.l.needsRotate ((Time.mk e.now UTC).In s.l.timeZone) data.length = (true, s.l) := by
    simp only [RotateFile.needsRotate, hstart, Option.isNone_some, Bool.false_eq_true, if_false,
      Time.In, htime, Bool.not_true]
    simp [hmax, hsize]
  have hro : s.rotateOnly e =
      ((Join s.l.dirName (s.l.baseName ++ "-" ++ t.Format s.l.timestampFormat
          ++ "_x" ++ hexEncode e.rnd ++ s.l.ext), t.Format s.l.timestampFormat, none),
        { s with l := { s.l with file := none, start := none },
                 fs := (s.fs.append s.l.fileName
                    ("rotating " ++ s.l.fileName ++ "\n").utf8ByteSize).rename s.l.fileName
                    (Join s.l.dirName (s.l.baseName ++ "-" ++ t.Format s.l.timestampFormat
                      ++ "_x" ++ hexEncode e.rnd ++ s.l.ext)) }) := by
    simp only [RotateFile.timestampFormat] at hfree ⊢
    simp only [Sys.rotateOnly, hclosed, hfile, hname, hstart, hstat, hren, fileWrite,
      FS.has_append, hfree, RotateFile.timestampFormat]
    simp
  have hw : s.Write e data = ((0, some Error.invalid),
      { s with l := { s.l with file := none, start := none },
               fs := (s.fs.append s.l.fileName
                  ("rotating " ++ s.l.fileName ++ "\n").utf8ByteSize).rename s.l.fileName
                  (Join s.l.dirName (s.l.baseName ++ "-" ++ t.Format s.l.timestampFormat
                    ++ "_x" ++ hexEncode e.rnd ++ s.l.ext)),
               spawned := s.spawned ++
                [(Join s.l.dirName (s.l.baseName ++ "-" ++ t.Format s.l.timestampFormat
                  ++ "_x" ++ hexEncode e.rnd ++ s.l.ext), t.Format s.l.timestampFormat)] }) := by
    simp only [Sys.Write, hclosed, hfile, Option.isNone_some, Bool.false_eq_true, if_false, hnr,
      Sys.rotate, hro, if_true, fileWrite, retired_ne_empty, ne_eq, not_false_eq_true]
    simp
  rw [hw]
  simp

/-- C1, at `Open("/tmp/a.log", 1 hour, 10, 1)` after an 8-byte write at 00:00:00:
a 4-byte write one second later crosses the limit (8 + 4 > 10), the file is
rotated, and the write returns `(0, os.ErrInvalid)` with no handle open. -/
theorem Write_crossing_maxSize_witness :
    (0 : Int) < (run (start UTC "/tmp/a.log" Hour 10 1 [])
        [(Op.write [1, 2, 3, 4, 5, 6, 7, 8], Env.ok 0 0)]).l.maxSize ∧
      (run (start UTC "/tmp/a.log" Hour 10 1 [])
        [(Op.write [1, 2, 3, 4, 5, 6, 7, 8], Env.ok 0 0)]).l.maxSize <
        add64 (run (start UTC "/tmp/a.log" Hour 10 1 [])
          [(Op.write [1, 2, 3, 4, 5, 6, 7, 8], Env.ok 0 0)]).l.curSize 4 ∧
      ((run (start UTC "/tmp/a.log" Hour 10 1 [])
        [(Op.write [1, 2, 3, 4, 5, 6, 7, 8], Env.ok 0 0)]).Write (Env.ok Second 7)
          [9, 10, 11, 12]).1 = (0, some Error.invalid) ∧
      ((run (start UTC "/tmp/a.log" Hour 10 1 [])
        [(Op.write [1, 2, 3, 4, 5, 6, 7, 8], Env.ok 0 0)]).Write (Env.ok Second 7)
          [9, 10, 11, 12]).2.l.file = none ∧
      ((run (start UTC "/tmp/a.log" Hour 10 1 [])
        [(Op.write [1, 2, 3, 4, 5, 6, 7, 8], Env.ok 0 0)]).Write (Env.ok Second 7)
          [9, 10, 11, 12]).2.l.curSize = 8 :=
  have h := Write_crossing_maxSize
    (run (start UTC "/tmp/a.log" Hour 10 1 []) [(Op.write [1, 2, 3, 4, 5, 6, 7, 8], Env.ok 0 0)])
    (Env.ok Second 7) [9, 10, 11, 12] ⟨0, UTC⟩ (by decide) (by decide) (by decide) (by decide)
    (by decide) (by decide) (by decide) (by decide) (by decide) (by decide)
  ⟨by decide, by decide, h.1, h.2.1, h.2.2.1⟩

/-! ## What one operation leaves unchanged -/

theorem nextRotate_congr (l k : RotateFile) (h1 : l.start = k.start) (h2 : l.maxAge = k.maxAge)
    (h3 : l.timeZone = k.timeZone) : l.nextRotate = k.nextRotate := by
  simp only [RotateFile.nextRotate, h1, h2, h3]

/-- The fields of the stream that the bucket invariant and the closed flag
depend on are left alone by `open`. -/
theorem openLog_frame (s : Sys) (e : Env) :
    (s.openLog e).2.l.closed = s.l.closed ∧ (s.openLog e).2.l.start = s.l.start ∧
      (s.openLog e).2.l.nextStart = s.l.nextStart ∧ (s.openLog e).2.l.maxAge = s.l.maxAge ∧
      (s.openLog e).2.l.timeZone = s.l.timeZone := by
  simp only [Sys.openLog]
  split_ifs <;> simp

theorem needsRotate_frame (l : RotateFile) (now : Time) (size : Int) :
    (l.needsRotate now size).2.closed = l.closed ∧
      (l.needsRotate now size).2.file = l.file ∧
      (l.needsRotate now size).2.maxAge = l.maxAge ∧
      (l.needsRotate now size).2.timeZone = l.timeZone ∧
      (l.needsRotate now size).2.start.isSome = true ∧
      ((l.start.isSome = true → l.nextStart = l.nextRotate) →
        (l.needsRotate now size).2.nextStart = (l.needsRotate now size).2.nextRotate) := by
  rw [needsRotate_state l now size]
  cases hs : l.start
  · simp only [Option.isNone_none, if_true, Option.isSome_some, true_and]
    intro _
    exact nextRotate_congr _ _ rfl rfl rfl
  · simp [hs]

theorem rotateOnly_frame (s : Sys) (e : Env) :
    (s.rotateOnly e).2.l.closed = s.l.closed ∧
      (s.rotateOnly e).2.l.nextStart = s.l.nextStart ∧
      (s.rotateOnly e).2.l.maxAge = s.l.maxAge ∧
      (s.rotateOnly e).2.l.timeZone = s.l.timeZone ∧
      ((s.rotateOnly e).2.l.start = s.l.start ∨ (s.rotateOnly e).2.l.start = none) := by
  cases hs : s.l.start <;> simp only [Sys.rotateOnly, hs] <;> split_ifs <;> simp [hs]

theorem rotate_frame (s : Sys) (e : Env) :
    (s.rotate e).2.l.closed = s.l.closed ∧
      (s.rotate e).2.l.nextStart = s.l.nextStart ∧
      (s.rotate e).2.l.maxAge = s.l.maxAge ∧
      (s.rotate e).2.l.timeZone = s.l.timeZone ∧
      ((s.rotate e).2.l.start = s.l.start ∨ (s.rotate e).2.l.start = none) := by
  have h := rotateOnly_frame s e
  simp only [Sys.rotate]
  split
  · exact h
  · split_ifs
    · exact h
    · exact h

theorem Write_frame (s : Sys) (e : Env) (data : List UInt8) :
    (s.Write e data).2.l.closed = s.l.closed ∧
      (s.Write e data).2.l.maxAge = s.l.maxAge ∧
      (s.Write e data).2.l.timeZone = s.l.timeZone ∧
      ((s.l.start.isSome = true → s.l.nextStart = s.l.nextRotate) →
        (s.Write e data).2.l.start.isSome = true →
        (s.Write e data).2.l.nextStart = (s.Write e data).2.l.nextRotate) := by
  by_cases hc : s.l.closed = true
  · obtain ⟨err, h⟩ := Write_of_closed s e data hc
    rw [h]
    simp
  · have hc' : s.l.closed = false := by simpa using hc
    simp only [Sys.Write, hc', Bool.false_eq_true, if_false]
    generalize hr : (if s.l.file.isNone then s.openLog e else (none, s)) = r
    have hfr : r.2.l.closed = s.l.closed ∧ r.2.l.start = s.l.start ∧
        r.2.l.nextStart = s.l.nextStart ∧ r.2.l.maxAge = s.l.maxAge ∧
        r.2.l.timeZone = s.l.timeZone := by
      subst hr
      split_ifs
      · exact openLog_frame s e
      · simp
    obtain ⟨f1, f2, f3, f4, f5⟩ := hfr
    have hcong : r.2.l.nextRotate = s.l.nextRotate := nextRotate_congr _ _ f2 f4 f5
    rw [hc'] at f1
    split
    · refine ⟨f1, f4, f5, ?_⟩
      intro h1 h2
      rw [f3, hcong]
      exact h1 (by rw [← f2]; exact h2)
    · obtain ⟨n1, n2, n3, n4, n5, n6⟩ := needsRotate_frame r.2.l
        (Time.In ⟨e.now, UTC⟩ r.2.l.timeZone) data.length
      generalize r.2.l.needsRotate (Time.In ⟨e.now, UTC⟩ r.2.l.timeZone) data.length = nr at *
      generalize hrr : (if nr.1 = true then
          Sys.rotate { l := nr.2, fs := r.2.fs, spawned := r.2.spawned } e
        else (none, { l := nr.2, fs := r.2.fs, spawned := r.2.spawned })) = rr
      have hfr : rr.2.l.closed = nr.2.closed ∧ rr.2.l.nextStart = nr.2.nextStart ∧
          rr.2.l.maxAge = nr.2.maxAge ∧ rr.2.l.timeZone = nr.2.timeZone ∧
          (rr.2.l.start = nr.2.start ∨ rr.2.l.start = none) := by
        subst hrr
        split_ifs
        · exact rotate_frame _ e
        · simp
      obtain ⟨g1, g2, g3, g4, g5⟩ := hfr
      have key : (s.l.start.isSome = true → s.l.nextStart = s.l.nextRotate) →
          rr.2.l.start.isSome = true → rr.2.l.nextStart = rr.2.l.nextRotate := by
        intro h1 h2
        rcases g5 with g5 | g5
        · rw [g2, nextRotate_congr rr.2.l nr.2 g5 g3 g4]
          apply n6
          intro h3
          rw [f3, hcong]
          exact h1 (by rw [← f2]; exact h3)
        · rw [g5] at h2
          simp at h2
      split
      · exact ⟨by rw [g1, n1, f1], by rw [g3, n3, f4], by rw [g4, n4, f5], key⟩
      · split_ifs
        · refine ⟨by simp only []; rw [g1, n1, f1], by simp only []; rw [g3, n3, f4],
            by simp only []; rw [g4, n4, f5], ?_⟩
          intro h1 h2
          exact (key h1 h2).trans (nextRotate_congr _ _ rfl rfl rfl)
        · exact ⟨by simp only []; rw [g1, n1, f1], by simp only []; rw [g3, n3, f4],
            by simp only []; rw [g4, n4, f5], key⟩

theorem background_l (s : Sys) (e : Env) : (s.background e).l = s.l := by
  simp only [Sys.background]
  split
  · rfl
  · simp only [Sys.compressAndCleanup, Sys.compress, Sys.cleanup]
    split_ifs <;> (try split) <;> (try split) <;> simp_all

theorem setters_bucket (l : RotateFile) :
    (∀ age, (l.SetMaxAge age).nextStart = (l.SetMaxAge age).nextRotate) ∧
      (∀ tz, (l.SetTimeZone tz).start.isSome = true →
        (l.SetTimeZone tz).nextStart = (l.SetTimeZone tz).nextRotate) := by
  constructor
  · intro age
    exact nextRotate_congr _ _ rfl rfl rfl
  · intro tz
    cases hs : l.start
    · simp [RotateFile.SetTimeZone, hs]
    · intro _
      simp only [RotateFile.SetTimeZone, hs]
      exact nextRotate_congr _ _ rfl rfl rfl

/-- What `SetMaxAge` stores: the new period, the same zone and start, and as
`nextStart` the boundary of every stream with that start, period and zone. -/
theorem SetMaxAge_policy (l : RotateFile) (age : Int) :
    (l.SetMaxAge age).maxAge = age ∧ (l.SetMaxAge age).timeZone = l.timeZone ∧
      (l.SetMaxAge age).start = l.start ∧
      ∀ k : RotateFile, k.start = l.start → k.maxAge = age → k.timeZone = l.timeZone →
        (l.SetMaxAge age).nextStart = k.nextRotate :=
  ⟨rfl, rfl, rfl, fun k h1 h2 h3 =>
    nextRotate_congr { l with maxAge := age } k h1.symm h2.symm h3.symm⟩

/-- What `SetTimeZone` stores on a stream with a recorded start: the new zone,
the same period, the start carried into the new zone, and as `nextStart` the
boundary of every stream with that start, period and zone. -/
theorem SetTimeZone_policy (l : RotateFile) (tz : Location) (hs : l.start.isSome = true) :
    (l.SetTimeZone tz).timeZone = tz ∧ (l.SetTimeZone tz).maxAge = l.maxAge ∧
      (l.SetTimeZone tz).start = l.start.map (fun t => t.In tz) ∧
      ∀ k : RotateFile, k.start = l.start.map (fun t => t.In tz) → k.maxAge = l.maxAge →
        k.timeZone = tz → (l.SetTimeZone tz).nextStart = k.nextRotate := by
  cases hl : l.start with
  | none => simp [hl] at hs
  | some t =>
    simp only [RotateFile.SetTimeZone, hl, Option.map_some']
    exact ⟨trivial, trivial, trivial, fun k h1 h2 h3 =>
      nextRotate_congr _ k h1.symm h2.symm h3.symm⟩

/-- One operation keeps the bucket invariant: a recorded start has
`nextStart` as its boundary. -/
theorem step_bucket (s : Sys) (e : Env) (op : Op)
    (h : s.l.start.isSome = true → s.l.nextStart = s.l.nextRotate) :
    (step s e op).l.start.isSome = true →
      (step s e op).l.nextStart = (step s e op).l.nextRotate := by
  cases op with
  | write data => exact (Write_frame s e data).2.2.2 h
  | rotate =>
    obtain ⟨_, g2, g3, g4, g5⟩ := rotate_frame s e
    intro h2
    simp only [step, Sys.Rotate] at h2 ⊢
    rcases g5 with g5 | g5
    · rw [g2, nextRotate_congr _ s.l g5 g3 g4]
      exact h (by rw [← g5]; exact h2)
    · rw [g5] at h2
      simp at h2
  | close =>
    intro h2
    have hfr : (s.close e).2.l.start = s.l.start ∧ (s.close e).2.l.nextStart = s.l.nextStart ∧
        (s.close e).2.l.maxAge = s.l.maxAge ∧ (s.close e).2.l.timeZone = s.l.timeZone := by
      simp only [Sys.close]
      split_ifs <;> simp
    simp only [step, Sys.Close] at h2 ⊢
    rw [hfr.2.1, nextRotate_congr _ s.l hfr.1 hfr.2.2.1 hfr.2.2.2]
    exact h (by rw [← hfr.1]; exact h2)
  | setMaxSize size =>
    intro h2
    exact (h h2).trans (nextRotate_congr _ _ rfl rfl rfl)
  | setMaxAge age => exact fun _ => (setters_bucket s.l).1 age
  | setMaxBackups count =>
    intro h2
    exact (h h2).trans (nextRotate_congr _ _ rfl rfl rfl)
  | setTimeZone tz => exact (setters_bucket s.l).2 tz
  | background =>
    simp only [step, background_l]
    exact h

/-- One operation in which the handle's `Close` does not fail keeps a closed
stream without a handle. -/
theorem step_closed (s : Sys) (e : Env) (op : Op) (he : e.closeFails = false)
    (h : s.l.closed = true → s.l.file = none) :
    (step s e op).l.closed = true → (step s e op).l.file = none := by
  cases op with
  | write data =>
    by_cases hc : s.l.closed = true
    · obtain ⟨err, hw⟩ := Write_of_closed s e data hc
      simp only [step, hw]
      exact h
    · intro h2
      rw [show (step s e (Op.write data)).l.closed = s.l.closed from (Write_frame s e data).1] at h2
      exact absurd h2 hc
  | rotate =>
    by_cases hc : s.l.closed = true
    · obtain ⟨err, hw⟩ := Rotate_of_closed s e hc
      simp only [step, hw]
      exact h
    · intro h2
      rw [show (step s e Op.rotate).l.closed = s.l.closed from (rotate_frame s e).1] at h2
      exact absurd h2 hc
  | close =>
    simp only [step, Sys.Close, Sys.close, he]
    split_ifs with hc <;> simp_all
  | setMaxSize size => exact h
  | setMaxAge age => exact h
  | setMaxBackups count => exact h
  | setTimeZone tz =>
    simp only [step, RotateFile.SetTimeZone]
    split <;> exact h
  | background =>
    simp only [step, background_l]
    exact h

theorem run_bucket (trace : List (Op × Env)) (s : Sys)
    (h : s.l.start.isSome = true → s.l.nextStart = s.l.nextRotate) :
    (run s trace).l.start.isSome = true → (run s trace).l.nextStart = (run s trace).l.nextRotate := by
  induction trace generalizing s with
  | nil => exact h
  | cons oe rest ih => exact ih _ (step_bucket s oe.2 oe.1 h)

theorem run_closed (trace : List (Op × Env)) (s : Sys)
    (hok : ∀ oe ∈ trace, oe.2.closeFails = false) (h : s.l.closed = true → s.l.file = none) :
    (run s trace).l.closed = true → (run s trace).l.file = none := by
  induction trace generalizing s with
  | nil => exact h
  | cons oe rest ih =>
    exact ih _ (fun x hx => hok x (List.mem_cons_of_mem _ hx))
      (step_closed s oe.2 oe.1 (hok oe (List.mem_cons_self _ _)) h)

/-! ## The closed flag and the handle -/

/-- C8 as stated fails: after a write, a `Close` whose handle close fails
returns the error with `closed = true` and the handle still set. -/
theorem closed_keeps_handle_counterexample :
    (run (start UTC "/tmp/a.log" Hour (-1) 1 [])
        [(Op.write [97], Env.ok 0 0),
          (Op.close, ⟨1, 0, false, false, true, false, false, none, 0⟩)]).l.closed = true ∧
      (run (start UTC "/tmp/a.log" Hour (-1) 1 [])
        [(Op.write [97], Env.ok 0 0),
          (Op.close, ⟨1, 0, false, false, true, false, false, none, 0⟩)]).l.file =
        some (File.named "/tmp/a.log") ∧
      ((run (start UTC "/tmp/a.log" Hour (-1) 1 []) [(Op.write [97], Env.ok 0 0)]).Close
        ⟨1, 0, false, false, true, false, false, none, 0⟩).1 = some Error.io := by
  decide

/-- C8, amended: in every state reachable from `Open` through the public
operations (and the background goroutines) in which no close of the handle has
failed, `closed = true` implies that the handle is none; and in such a state a
`Close` whose handle close succeeds returns no error and leaves the stream
closed without a handle. -/
theorem closed_handle_none (z : Location) (fn : String) (maxAge maxSize count : Int) (fs : FS)
    (trace : List (Op × Env)) (hok : ∀ oe ∈ trace, oe.2.closeFails = false) :
    ((run (start z fn maxAge maxSize count fs) trace).l.closed = true →
        (run (start z fn maxAge maxSize count fs) trace).l.file = none) ∧
      ∀ e : Env, e.closeFails = false →
        ((run (start z fn maxAge maxSize count fs) trace).Close e).1 = none ∧
        ((run (start z fn maxAge maxSize count fs) trace).Close e).2.l.closed = true ∧
        ((run (start z fn maxAge maxSize count fs) trace).Close e).2.l.file = none := by
  have h0 : (start z fn maxAge maxSize count fs).l.closed = true →
      (start z fn maxAge maxSize count fs).l.file = none := by
    simp [start, Open]
  have h := run_closed trace _ hok h0
  refine ⟨h, fun e he => ?_⟩
  simp only [Sys.Close, Sys.close, he]
  split_ifs with hc <;> simp_all

/-- C8, amended, on a stream that was written to and closed. -/
theorem closed_handle_none_witness :
    (∀ oe ∈ [(Op.write [97], Env.ok 0 0), (Op.close, Env.ok 1 0)], oe.2.closeFails = false) ∧
      (run (start UTC "/tmp/a.log" Hour (-1) 1 [])
        [(Op.write [97], Env.ok 0 0), (Op.close, Env.ok 1 0)]).l.closed = true ∧
      (run (start UTC "/tmp/a.log" Hour (-1) 1 [])
        [(Op.write [97], Env.ok 0 0), (Op.close, Env.ok 1 0)]).l.file = none :=
  ⟨by decide, by decide,
    (closed_handle_none UTC "/tmp/a.log" Hour (-1) 1 []
      [(Op.write [97], Env.ok 0 0), (Op.close, Env.ok 1 0)] (by decide)).1 (by decide)⟩

/-! ## The bucket start and its boundary -/

/-- C9: in every state reachable from `Open` through the public operations
(and the background goroutines) in which a bucket start is recorded,
`nextStart` is `nextRotate` of that start under the current `maxAge` and time
zone. From such a state `SetMaxAge age` stores `age` as the period, keeps the
zone and the start, and leaves `nextStart` equal to the boundary of that start
under the new period: its own `nextRotate`, and the `nextRotate` of every
stream with that start, the period `age` and that zone. `SetTimeZone tz`
stores `tz` as the zone, keeps the period, carries the start into `tz`, and
leaves `nextStart` equal to the boundary of that start under the new zone: its
own `nextRotate`, and the `nextRotate` of every stream with that start, that
period and the zone `tz`. -/
theorem nextStart_is_boundary (z : Location) (fn : String) (maxAge maxSize count : Int)
    (fs : FS) (trace : List (Op × Env))
    (hs : (run (start z fn maxAge maxSize count fs) trace).l.start.isSome = true) :
    (run (start z fn maxAge maxSize count fs) trace).l.nextStart =
        (run (start z fn maxAge maxSize count fs) trace).l.nextRotate ∧
      (∀ age,
        ((run (start z fn maxAge maxSize count fs) trace).l.SetMaxAge age).maxAge = age ∧
        ((run (start z fn maxAge maxSize count fs) trace).l.SetMaxAge age).timeZone =
          (run (start z fn maxAge maxSize count fs) trace).l.timeZone ∧
        ((run (start z fn maxAge maxSize count fs) trace).l.SetMaxAge age).start =
          (run (start z fn maxAge maxSize count fs) trace).l.start ∧
        ((run (start z fn maxAge maxSize count fs) trace).l.SetMaxAge age).nextStart =
          ((run (start z fn maxAge maxSize count fs) trace).l.SetMaxAge age).nextRotate ∧
        ∀ k : RotateFile,
          k.start = (run (start z fn maxAge maxSize count fs) trace).l.start →
          k.maxAge = age →
          k.timeZone = (run (start z fn maxAge maxSize count fs) trace).l.timeZone →
          ((run (start z fn maxAge maxSize count fs) trace).l.SetMaxAge age).nextStart =
            k.nextRotate) ∧
      (∀ tz,
        ((run (start z fn maxAge maxSize count fs) trace).l.SetTimeZone tz).timeZone = tz ∧
        ((run (start z fn maxAge maxSize count fs) trace).l.SetTimeZone tz).maxAge =
          (run (start z fn maxAge maxSize count fs) trace).l.maxAge ∧
        ((run (start z fn maxAge maxSize count fs) trace).l.SetTimeZone tz).start =
          (run (start z fn maxAge maxSize count fs) trace).l.start.map (fun t => t.In tz) ∧
        ((run (start z fn maxAge maxSize count fs) trace).l.SetTimeZone tz).nextStart =
          ((run (start z fn maxAge maxSize count fs) trace).l.SetTimeZone tz).nextRotate ∧
        ∀ k : RotateFile,
          k.start =
            (run (start z fn maxAge maxSize count fs) trace).l.start.map (fun t => t.In tz) →
          k.maxAge = (run (start z fn maxAge maxSize count fs) trace).l.maxAge →
          k.timeZone = tz →
          ((run (start z fn maxAge maxSize count fs) trace).l.SetTimeZone tz).nextStart =
            k.nextRotate) := by
  have h0 : (start z fn maxAge maxSize count fs).l.start.isSome = true →
      (start z fn maxAge maxSize count fs).l.nextStart =
        (start z fn maxAge maxSize count fs).l.nextRotate := by
    simp [start, Open]
  refine ⟨run_bucket trace _ h0 hs, fun age => ?_, fun tz => ?_⟩
  · obtain ⟨a1, a2, a3, a4⟩ := SetMaxAge_policy (run (start z fn maxAge maxSize count fs) trace).l age
    exact ⟨a1, a2, a3, a4 _ a3 a1 a2, a4⟩
  · obtain ⟨a1, a2, a3, a4⟩ :=
      SetTimeZone_policy (run (start z fn maxAge maxSize count fs) trace).l tz hs
    exact ⟨a1, a2, a3, a4 _ a3 a2 a1, a4⟩

/-- C9, on the stream of `TestConfig` (period 30 days, Pacific standard time)
after a write at 2019-12-30 22:27:09 UTC and `SetMaxAge` of one hour: the start
is recorded and `nextStart` is its boundary; a further `SetMaxAge` of 7 days
stores that period and moves `nextStart` from 15:00 local time of the same day
to Sunday 2020-01-05 00:00 local time; `SetTimeZone` of UTC stores UTC, carries
the start into UTC and moves `nextStart` to 23:00 UTC. -/
theorem nextStart_is_boundary_witness :
    (run (start (FixedZone (-28800)) "/tmp/a.log" month 1024 4 [])
        [(Op.write [97, 98, 99, 100, 10], Env.ok 63713341629000012345 0),
          (Op.setMaxAge Hour, Env.ok 63713341629000012345 0)]).l.start.isSome = true ∧
      (run (start (FixedZone (-28800)) "/tmp/a.log" month 1024 4 [])
        [(Op.write [97, 98, 99, 100, 10], Env.ok 63713341629000012345 0),
          (Op.setMaxAge Hour, Env.ok 63713341629000012345 0)]).l.nextStart =
        ⟨63713343600000000000, FixedZone (-28800)⟩ ∧
      (run (start (FixedZone (-28800)) "/tmp/a.log" month 1024 4 [])
        [(Op.write [97, 98, 99, 100, 10], Env.ok 63713341629000012345 0),
          (Op.setMaxAge Hour, Env.ok 63713341629000012345 0)]).l.nextStart =
        (run (start (FixedZone (-28800)) "/tmp/a.log" month 1024 4 [])
          [(Op.write [97, 98, 99, 100, 10], Env.ok 63713341629000012345 0),
            (Op.setMaxAge Hour, Env.ok 63713341629000012345 0)]).l.nextRotate ∧
      ((run (start (FixedZone (-28800)) "/tmp/a.log" month 1024 4 [])
        [(Op.write [97, 98, 99, 100, 10], Env.ok 63713341629000012345 0),
          (Op.setMaxAge Hour, Env.ok 63713341629000012345 0)]).l.SetMaxAge week).maxAge = week ∧
      ((run (start (FixedZone (-28800)) "/tmp/a.log" month 1024 4 [])
        [(Op.write [97, 98, 99, 100, 10], Env.ok 63713341629000012345 0),
          (Op.setMaxAge Hour, Env.ok 63713341629000012345 0)]).l.SetMaxAge week).nextStart =
        ⟨63713808000000000000, FixedZone (-28800)⟩ ∧
      ((run (start (FixedZone (-28800)) "/tmp/a.log" month 1024 4 [])
        [(Op.write [97, 98, 99, 100, 10], Env.ok 63713341629000012345 0),
          (Op.setMaxAge Hour, Env.ok 63713341629000012345 0)]).l.SetMaxAge week).nextStart =
        ((run (start (FixedZone (-28800)) "/tmp/a.log" month 1024 4 [])
          [(Op.write [97, 98, 99, 100, 10], Env.ok 63713341629000012345 0),
            (Op.setMaxAge Hour, Env.ok 63713341629000012345 0)]).l.SetMaxAge week).nextRotate ∧
      ((run (start (FixedZone (-28800)) "/tmp/a.log" month 1024 4 [])
        [(Op.write [97, 98, 99, 100, 10], Env.ok 63713341629000012345 0),
          (Op.setMaxAge Hour, Env.ok 63713341629000012345 0)]).l.SetTimeZone UTC).timeZone = UTC ∧
      ((run (start (FixedZone (-28800)) "/tmp/a.log" month 1024 4 [])
        [(Op.write [97, 98, 99, 100, 10], Env.ok 63713341629000012345 0),
          (Op.setMaxAge Hour, Env.ok 63713341629000012345 0)]).l.SetTimeZone UTC).start =
        some ⟨63713341629000012345, UTC⟩ ∧
      ((run (start (FixedZone (-28800)) "/tmp/a.log" month 1024 4 [])
        [(Op.write [97, 98, 99, 100, 10], Env.ok 63713341629000012345 0),
          (Op.setMaxAge Hour, Env.ok 63713341629000012345 0)]).l.SetTimeZone UTC).nextStart =
        ⟨63713343600000000000, UTC⟩ ∧
      ((run (start (FixedZone (-28800)) "/tmp/a.log" month 1024 4 [])
        [(Op.write [97, 98, 99, 100, 10], Env.ok 63713341629000012345 0),
          (Op.setMaxAge Hour, Env.ok 63713341629000012345 0)]).l.SetTimeZone UTC).nextStart =
        ((run (start (FixedZone (-28800)) "/tmp/a.log" month 1024 4 [])
          [(Op.write [97, 98, 99, 100, 10], Env.ok 63713341629000012345 0),
            (Op.setMaxAge Hour, Env.ok 63713341629000012345 0)]).l.SetTimeZone UTC).nextRotate :=
  ⟨by decide, by decide,
    (nextStart_is_boundary (FixedZone (-28800)) "/tmp/a.log" month 1024 4 []
      [(Op.write [97, 98, 99, 100, 10], Env.ok 63713341629000012345 0),
        (Op.setMaxAge Hour, Env.ok 63713341629000012345 0)] (by decide)).1,
    ((nextStart_is_boundary (FixedZone (-28800)) "/tmp/a.log" month 1024 4 []
      [(Op.write [97, 98, 99, 100, 10], Env.ok 63713341629000012345 0),
        (Op.setMaxAge Hour, Env.ok 63713341629000012345 0)] (by decide)).2.1 week).1,
    by decide,
    ((nextStart_is_boundary (FixedZone (-28800)) "/tmp/a.log" month 1024 4 []
      [(Op.write [97, 98, 99, 100, 10], Env.ok 63713341629000012345 0),
        (Op.setMaxAge Hour, Env.ok 63713341629000012345 0)] (by decide)).2.1 week).2.2.2.1,
    ((nextStart_is_boundary (FixedZone (-28800)) "/tmp/a.log" month 1024 4 []
      [(Op.write [97, 98, 99, 100, 10], Env.ok 63713341629000012345 0),
        (Op.setMaxAge Hour, Env.ok 63713341629000012345 0)] (by decide)).2.2 UTC).1,
    by decide, by decide,
    ((nextStart_is_boundary (FixedZone (-28800)) "/tmp/a.log" month 1024 4 []
      [(Op.write [97, 98, 99, 100, 10], Env.ok 63713341629000012345 0),
        (Op.setMaxAge Hour, Env.ok 63713341629000012345 0)] (by decide)).2.2 UTC).2.2.2.1⟩

/-! ## The boundary, branch by branch -/

theorem units :
    Second = 1000000000 ∧ Minute = 60000000000 ∧ Hour = 3600000000000 ∧
      day = 86400000000000 ∧ week = 604800000000000 ∧ month = 2592000000000000 := by
  decide

theorem quo_of_nonneg {a b : Int} (ha : 0 ≤ a) (hb : 0 ≤ b) : quo a b = a / b :=
  Int.tdiv_eq_ediv ha hb

theorem rem_of_nonneg {a b : Int} (ha : 0 ≤ a) (hb : 0 ≤ b) : rem a b = a % b :=
  Int.tmod_eq_emod ha hb

/-- The instant `time.Date` builds, through the month index. -/
theorem Date_monthStart (y m d h mi sec nsec : Int) (z : Location)
    (hz : z.transitions = []) :
    Date y m d h mi sec nsec z =
      ⟨((monthStart (12 * y + (m - 1)) + (d - 1)) * 86400 + (h * 3600 + mi * 60 + sec)
        - z.offset) * Second + nsec, z⟩ := by
  have e1 : (12 * y + (m - 1)) / 12 = y + (m - 1) / 12 := by omega
  have e2 : (12 * y + (m - 1)) % 12 = (m - 1) % 12 := by omega
  rw [Date_fixed y m d h mi sec nsec z hz]
  simp only [monthStart, e1, e2]

/-- Rebuilding a date from the civil fields of day number `D`, `n` days on. -/
theorem Date_civil (D n h mi sec nsec : Int) (z : Location) (hz : z.transitions = []) :
    Date (yearDay D).1 (monthDay (yearDay D).1 (yearDay D).2).1
        ((monthDay (yearDay D).1 (yearDay D).2).2 + n) h mi sec nsec z =
      ⟨((D + n) * 86400 + (h * 3600 + mi * 60 + sec) - z.offset) * Second + nsec, z⟩ := by
  obtain ⟨_, _, _, hsum, _⟩ := civil_spec D
  rw [Date_monthStart _ _ _ _ _ _ _ z hz]
  have : monthStart (12 * (yearDay D).1 + ((monthDay (yearDay D).1 (yearDay D).2).1 - 1)) +
      ((monthDay (yearDay D).1 (yearDay D).2).2 + n - 1) = D + n := by
    simp only [monthIndex] at hsum
    omega
  rw [this]

/-- The local clock of an instant given by its local second count. -/
theorem localSec_mk (X nsec : Int) (z : Location) (hz : z.transitions = []) (h0 : 0 ≤ nsec)
    (h1 : nsec < Second) :
    Time.localSec ⟨(X - z.offset) * Second + nsec, z⟩ = X := by
  have hS := units.1
  rw [localSec_fixed _ hz]
  simp only [hS] at h1 ⊢
  omega

theorem monthLoop_eq (fuel : Nat) (mn y : Int) (h1 : 1 ≤ mn) (h2 : mn ≤ 12 * fuel + 12) :
    monthLoop fuel mn y = ((mn - 1) % 12 + 1, y + (mn - 1) / 12) := by
  induction fuel generalizing mn y with
  | zero =>
    simp only [monthLoop]
    have e1 : (mn - 1) % 12 + 1 = mn := by omega
    have e2 : (mn - 1) / 12 = 0 := by omega
    rw [e1, e2, add_zero]
  | succ fuel ih =>
    simp only [monthLoop]
    split_ifs with h
    · rw [ih (mn - 12) (y + 1) (by omega) (by push_cast at h2; omega)]
      have e1 : (mn - 12 - 1) % 12 = (mn - 1) % 12 := by omega
      have e2 : y + 1 + (mn - 12 - 1) / 12 = y + (mn - 1) / 12 := by omega
      rw [e1, e2]
    · have e1 : (mn - 1) % 12 + 1 = mn := by omega
      have e2 : (mn - 1) / 12 = 0 := by omega
      rw [e1, e2, add_zero]

/-- The boundary of a period of `k` times 30 days: local midnight on the first
day of the month `k` months after the month of the bucket start. -/
theorem nextRotate_months (l : RotateFile) (t : Time) (k : Int)
    (hz : l.timeZone.transitions = []) (hs : l.start = some t)
    (hk : 1 ≤ k) (hage : l.maxAge = k * month) :
    l.nextRotate =
      ⟨(monthStart (monthIndex (t.In l.timeZone).localDay + k) * 86400 - l.timeZone.offset)
        * Second, l.timeZone⟩ := by
  obtain ⟨hS, hM, hH, hd, hw, hm⟩ := units
  obtain ⟨c1, c2, _, _, _⟩ := civil_spec (t.In l.timeZone).localDay
  have hdur : ¬ k * month < Minute := by rw [hm, hM]; omega
  have hrem : rem (k * month) month = 0 := Int.mul_tmod_left _ _
  have hquo : quo (k * month) month = k := Int.mul_tdiv_cancel _ (by rw [hm]; decide)
  simp only [RotateFile.nextRotate, hs, hdur, if_false, hage, hrem, if_true, hquo, Time.Year,
    Time.Month]
  rw [monthLoop_eq _ _ _ (by omega) (by omega), Date_monthStart _ _ _ _ _ _ _ _ hz]
  simp only [monthIndex]
  congr 2
  have e : 12 * ((yearDay (t.In l.timeZone).localDay).1 +
      ((monthDay (yearDay (t.In l.timeZone).localDay).1
        (yearDay (t.In l.timeZone).localDay).2).1 + k - 1) / 12) +
      (((monthDay (yearDay (t.In l.timeZone).localDay).1
        (yearDay (t.In l.timeZone).localDay).2).1 + k - 1) % 12 + 1 - 1) =
      12 * (yearDay (t.In l.timeZone).localDay).1 +
        ((monthDay (yearDay (t.In l.timeZone).localDay).1
          (yearDay (t.In l.timeZone).localDay).2).1 - 1) + k := by omega
  rw [e]
  ring

/-- The civil date of the first day of the month with index `j`. -/
theorem civil_monthStart (j : Int) :
    (yearDay (monthStart j)).1 = j / 12 ∧
      (monthDay (yearDay (monthStart j)).1 (yearDay (monthStart j)).2).1 = j % 12 + 1 ∧
      (monthDay (yearDay (monthStart j)).1 (yearDay (monthStart j)).2).2 = 1 := by
  obtain ⟨c1, c2, c3, hsum, _⟩ := civil_spec (monthStart j)
  have hidx := monthIndex_eq_of_mem (monthStart j) j le_rfl (monthStart_lt_succ j)
  rw [hidx] at hsum
  simp only [monthIndex] at hidx
  refine ⟨by omega, by omega, by omega⟩

/-- The clock and calendar fields of local midnight on day number `D`. -/
theorem midnight_fields (D : Int) (z : Location) (hz : z.transitions = []) :
    Time.localDay ⟨(D * 86400 - z.offset) * Second, z⟩ = D ∧
      Time.Hour ⟨(D * 86400 - z.offset) * Second, z⟩ = 0 ∧
      Time.Minute ⟨(D * 86400 - z.offset) * Second, z⟩ = 0 ∧
      Time.Second ⟨(D * 86400 - z.offset) * Second, z⟩ = 0 ∧
      Time.Nanosecond ⟨(D * 86400 - z.offset) * Second, z⟩ = 0 := by
  have hl : Time.localSec ⟨(D * 86400 - z.offset) * Second, z⟩ = D * 86400 := by
    have := localSec_mk (D * 86400) 0 z hz le_rfl (by rw [units.1]; decide)
    simpa using this
  simp only [Time.localDay, Time.Hour, Time.Minute, Time.Second, Time.Nanosecond, hl]
  refine ⟨by omega, by omega, by omega, by omega, ?_⟩
  simp

/-- C6, amended: in a fixed-offset configured time zone (a location without
transitions), for a bucket start whose local date is in month `m` of year `y`,
and a period of `k` times 30 days with `k ≥ 1`, `nextRotate` is 00:00:00 local
time on day 1 of the month `k` months after `m`: month `(m - 1 + k) mod 12 + 1`
of year `y + (m - 1 + k) div 12`, the year advancing by one for each wrap past
December. -/
theorem nextRotate_month_boundary (l : RotateFile) (t : Time) (k y m : Int)
    (hz : l.timeZone.transitions = []) (hs : l.start = some t) (hk : 1 ≤ k)
    (hage : l.maxAge = k * (30 * 24 * Hour))
    (hy : (t.In l.timeZone).Year = y) (hm : (t.In l.timeZone).Month = m) :
    l.nextRotate = Date (y + (m - 1 + k) / 12) ((m - 1 + k) % 12 + 1) 1 0 0 0 0 l.timeZone ∧
      l.nextRotate.loc = l.timeZone ∧
      l.nextRotate.Year = y + (m - 1 + k) / 12 ∧
      l.nextRotate.Month = (m - 1 + k) % 12 + 1 ∧
      l.nextRotate.Day = 1 ∧ l.nextRotate.Hour = 0 ∧ l.nextRotate.Minute = 0 ∧
      l.nextRotate.Second = 0 ∧ l.nextRotate.Nanosecond = 0 := by
  have hnr := nextRotate_months l t k hz hs hk hage
  obtain ⟨c1, c2, _, _, _⟩ := civil_spec (t.In l.timeZone).localDay
  simp only [Time.Year, Time.Month] at hy hm
  have hidx : monthIndex (t.In l.timeZone).localDay + k = 12 * y + (m - 1) + k := by
    simp only [monthIndex]
    rw [hm, hy]
  rw [hidx] at hnr
  rw [hm] at c1 c2
  obtain ⟨f1, f2, f3, f4, f5⟩ :=
    midnight_fields (monthStart (12 * y + (m - 1) + k)) l.timeZone hz
  obtain ⟨g1, g2, g3⟩ := civil_monthStart (12 * y + (m - 1) + k)
  rw [hnr]
  refine ⟨?_, rfl, ?_, ?_, ?_, f2, f3, f4, f5⟩
  · rw [Date_monthStart _ _ _ _ _ _ _ _ hz]
    have e : 12 * (y + (m - 1 + k) / 12) + ((m - 1 + k) % 12 + 1 - 1) = 12 * y + (m - 1) + k := by
      omega
    rw [e]
    congr 1
    ring
  · simp only [Time.Year, f1, g1]
    omega
  · simp only [Time.Month, f1, g2]
    omega
  · simp only [Time.Day, f1, g3]

/-- Rebuilding a date from the fields of `t`, `n` days on. -/
theorem Date_fields_add (t : Time) (n h mi sec nsec : Int) (z : Location)
    (hz : z.transitions = []) :
    Date t.Year t.Month (t.Day + n) h mi sec nsec z =
      ⟨((t.localDay + n) * 86400 + (h * 3600 + mi * 60 + sec) - z.offset) * Second + nsec, z⟩ :=
  Date_civil t.localDay n h mi sec nsec z hz

/-- Rebuilding a date from the fields of `t`. -/
theorem Date_fields (t : Time) (h mi sec nsec : Int) (z : Location)
    (hz : z.transitions = []) :
    Date t.Year t.Month t.Day h mi sec nsec z =
      ⟨(t.localDay * 86400 + (h * 3600 + mi * 60 + sec) - z.offset) * Second + nsec, z⟩ := by
  have := Date_fields_add t 0 h mi sec nsec z hz
  simpa using this

/-- The method `AddDate(0, 0, n)` moves the local day and keeps the clock. -/
theorem AddDate_days (t : Time) (n : Int) (hz : t.loc.transitions = []) :
    t.AddDate 0 0 n =
      ⟨((t.localDay + n) * 86400 + (t.Hour * 3600 + t.Minute * 60 + t.Second)
        - t.loc.offset) * Second + t.Nanosecond, t.loc⟩ := by
  simp only [Time.AddDate, add_zero]
  exact Date_fields_add t n _ _ _ _ _ hz

/-- The calendar and clock fields of the instant `s` seconds into local day
`D`. -/
theorem clock_fields (D s : Int) (z : Location) (hz : z.transitions = []) (h0 : 0 ≤ s)
    (h1 : s < 86400) :
    Time.localDay ⟨(D * 86400 + s - z.offset) * Second, z⟩ = D ∧
      Time.Hour ⟨(D * 86400 + s - z.offset) * Second, z⟩ = s / 3600 ∧
      Time.Minute ⟨(D * 86400 + s - z.offset) * Second, z⟩ = s % 3600 / 60 ∧
      Time.Second ⟨(D * 86400 + s - z.offset) * Second, z⟩ = s % 60 ∧
      Time.Nanosecond ⟨(D * 86400 + s - z.offset) * Second, z⟩ = 0 := by
  have hl : Time.localSec ⟨(D * 86400 + s - z.offset) * Second, z⟩ = D * 86400 + s := by
    have := localSec_mk (D * 86400 + s) 0 z hz le_rfl (by rw [units.1]; decide)
    simpa using this
  simp only [Time.localDay, Time.Hour, Time.Minute, Time.Second, Time.Nanosecond, hl]
  refine ⟨by omega, by omega, by omega, by omega, ?_⟩
  simp

/-- Local noon of the day of `t`, as `nextRotate` builds it. -/
theorem noon_eq (t : Time) (z : Location) (hz : z.transitions = []) :
    Date t.Year t.Month t.Day 12 0 0 0 z =
      ⟨(t.localDay * 86400 + 43200 - z.offset) * Second, z⟩ := by
  rw [Date_fields _ _ _ _ _ z hz]
  simp

/-- Moving local noon of day `D` by `n` days and truncating to the clock time
`h:00:00` gives that time on day `D + n`. -/
theorem noon_shift (D n h : Int) (z : Location) (hz : z.transitions = []) :
    Date (Time.AddDate ⟨(D * 86400 + 43200 - z.offset) * Second, z⟩ 0 0 n).Year
        (Time.AddDate ⟨(D * 86400 + 43200 - z.offset) * Second, z⟩ 0 0 n).Month
        (Time.AddDate ⟨(D * 86400 + 43200 - z.offset) * Second, z⟩ 0 0 n).Day h 0 0 0 z =
      ⟨((D + n) * 86400 + h * 3600 - z.offset) * Second, z⟩ ∧
    Time.AddDate ⟨(D * 86400 + 43200 - z.offset) * Second, z⟩ 0 0 n =
      ⟨((D + n) * 86400 + 43200 - z.offset) * Second, z⟩ := by
  obtain ⟨f1, f2, f3, f4, f5⟩ := clock_fields D 43200 z hz (by decide) (by decide)
  have hadd : Time.AddDate ⟨(D * 86400 + 43200 - z.offset) * Second, z⟩ 0 0 n =
      ⟨((D + n) * 86400 + 43200 - z.offset) * Second, z⟩ := by
    rw [AddDate_days _ _ hz, f1, f2, f3, f4, f5]
    simp
  refine ⟨?_, hadd⟩
  rw [hadd, Date_fields _ _ _ _ _ z hz,
    (clock_fields (D + n) 43200 z hz (by decide) (by decide)).1]
  simp

/-- The boundary of a period of `wn` weeks (not a multiple of 30 days): local
midnight of the Sunday that starts the week `wn` weeks after the week of the
bucket start. -/
theorem nextRotate_weeks (l : RotateFile) (t : Time) (wn : Int)
    (hz : l.timeZone.transitions = []) (hs : l.start = some t) (hwn : 1 ≤ wn) (hage : l.maxAge = wn * week) (hnm : rem (wn * week) month ≠ 0) :
    l.nextRotate =
      ⟨(((t.In l.timeZone).localDay - ((t.In l.timeZone).localDay + 1) % 7 + 7 * wn) * 86400
        - l.timeZone.offset) * Second, l.timeZone⟩ := by
  obtain ⟨hS, hM, hH, hd, hw, hm⟩ := units
  have hdur : ¬ wn * week < Minute := by rw [hw, hM]; omega
  have hrem : rem (wn * week) week = 0 := Int.mul_tmod_left _ _
  have hquo : quo (wn * week) week = wn := Int.mul_tdiv_cancel _ (by rw [hw]; decide)
  simp only [RotateFile.nextRotate, hs, hage, hdur, if_false, hnm, hrem, if_true, hquo]
  rw [noon_eq _ _ hz]
  have hwd : Time.Weekday ⟨((t.In l.timeZone).localDay * 86400 + 43200 - l.timeZone.offset)
      * Second, l.timeZone⟩ = ((t.In l.timeZone).localDay + 1) % 7 := by
    simp only [Time.Weekday,
      (clock_fields (t.In l.timeZone).localDay 43200 l.timeZone hz (by decide) (by decide)).1]
  rw [hwd, (noon_shift _ _ 0 l.timeZone hz).1]
  congr 1
  ring

/-- The boundary of a period of `n` days (not a multiple of 7 or 30 days):
local midnight `n` days after the day of the bucket start. -/
theorem nextRotate_days (l : RotateFile) (t : Time) (n : Int)
    (hz : l.timeZone.transitions = []) (hs : l.start = some t) (hn : 1 ≤ n) (hage : l.maxAge = n * day) (hnm : rem (n * day) month ≠ 0)
    (hnw : rem (n * day) week ≠ 0) :
    l.nextRotate =
      ⟨(((t.In l.timeZone).localDay + n) * 86400 - l.timeZone.offset) * Second,
        l.timeZone⟩ := by
  obtain ⟨hS, hM, hH, hd, hw, hm⟩ := units
  have hdur : ¬ n * day < Minute := by rw [hd, hM]; omega
  have hrem : rem (n * day) day = 0 := Int.mul_tmod_left _ _
  have hquo : quo (n * day) day = n := Int.mul_tdiv_cancel _ (by rw [hd]; decide)
  simp only [RotateFile.nextRotate, hs, hage, hdur, if_false, hnm, hnw, hrem, if_true, hquo]
  rw [noon_eq _ _ hz, (noon_shift _ _ 0 l.timeZone hz).1]
  congr 1
  ring

/-- The loop that carries whole days out of the hour count, followed by the
final `time.Date`: `hr` hours after local midnight of day `D`. -/
theorem hourLoop_eq (fuel : Nat) (D hr : Int) (z : Location) (hz : z.transitions = [])
    (h0 : 0 ≤ hr)
    (h1 : hr < 24 * (fuel + 1)) :
    Date (hourLoop fuel ⟨(D * 86400 + 43200 - z.offset) * Second, z⟩ hr).1.Year
        (hourLoop fuel ⟨(D * 86400 + 43200 - z.offset) * Second, z⟩ hr).1.Month
        (hourLoop fuel ⟨(D * 86400 + 43200 - z.offset) * Second, z⟩ hr).1.Day
        (hourLoop fuel ⟨(D * 86400 + 43200 - z.offset) * Second, z⟩ hr).2 0 0 0 z =
      ⟨(D * 86400 + hr * 3600 - z.offset) * Second, z⟩ := by
  induction fuel generalizing D hr with
  | zero =>
    simp only [hourLoop]
    rw [Date_fields _ _ _ _ _ z hz, (clock_fields D 43200 z hz (by decide) (by decide)).1]
    simp
  | succ fuel ih =>
    simp only [hourLoop]
    split_ifs with h
    · rw [(noon_shift D 1 0 z hz).2,
        ih (D + 1) (hr - 24) (by omega) (by push_cast at h1 ⊢; omega)]
      congr 1
      ring
    · rw [Date_fields _ _ _ _ _ z hz, (clock_fields D 43200 z hz (by decide) (by decide)).1]
      simp

/-- The boundary of a period of `hn` hours (not a multiple of a day): the
next multiple of `hn` hours after local midnight of the day of the bucket
start, counted on into the following days when it passes 24. -/
theorem nextRotate_hours (l : RotateFile) (t : Time) (hn : Int)
    (hz : l.timeZone.transitions = []) (hs : l.start = some t) (hhn : 1 ≤ hn) (hage : l.maxAge = hn * Hour) (hnm : rem (hn * Hour) month ≠ 0)
    (hnw : rem (hn * Hour) week ≠ 0) (hnd : rem (hn * Hour) day ≠ 0) :
    l.nextRotate =
      ⟨((t.In l.timeZone).localDay * 86400 + ((t.In l.timeZone).Hour + hn) / hn * hn * 3600
        - l.timeZone.offset) * Second, l.timeZone⟩ := by
  obtain ⟨hS, hM, hH, hd, hw, hm⟩ := units
  have hdur : ¬ hn * Hour < Minute := by rw [hH, hM]; omega
  have hrem : rem (hn * Hour) Hour = 0 := Int.mul_tmod_left _ _
  have hquo : quo (hn * Hour) Hour = hn := Int.mul_tdiv_cancel _ (by rw [hH]; decide)
  have hh0 : 0 ≤ (t.In l.timeZone).Hour := by simp only [Time.Hour]; omega
  have hq : quo ((t.In l.timeZone).Hour + hn) hn = ((t.In l.timeZone).Hour + hn) / hn :=
    quo_of_nonneg (by omega) (by omega)
  have hpos : 0 ≤ ((t.In l.timeZone).Hour + hn) / hn * hn :=
    mul_nonneg (Int.ediv_nonneg (by omega) (by omega)) (by omega)
  simp only [RotateFile.nextRotate, hs, hage, hdur, if_false, hnm, hnw, hnd, hrem, if_true, hquo,
    hq]
  rw [noon_eq _ _ hz]
  exact hourLoop_eq _ _ _ _ hz hpos (by
    have := Int.toNat_of_nonneg hpos
    omega)

/-- An instant before the instant `X` seconds on the local clock of `z` has a
local second count below `X`. -/
theorem localSec_lt_of_before (t : Time) (X : Int) (z : Location) (hz : z.transitions = [])
    (h : t.Before ⟨(X - z.offset) * Second, z⟩ = true) : (t.In z).localSec < X := by
  have hS := units.1
  simp only [Time.Before, decide_eq_true_eq] at h
  rw [localSec_fixed (t.In z) hz]
  simp only [Time.In, hS] at h ⊢
  omega

theorem localSec_mono (r1 r2 : Time) (z : Location) (hz : z.transitions = [])
    (h : r1.ns ≤ r2.ns) : (r1.In z).localSec ≤ (r2.In z).localSec := by
  have hS := units.1
  rw [localSec_fixed (r1.In z) hz, localSec_fixed (r2.In z) hz]
  simp only [Time.In, hS]
  omega

theorem no_drift_month (l : RotateFile) (r1 r2 : Time) (hz : l.timeZone.transitions = [])
    (hage : l.maxAge = 30 * 24 * Hour)
    (h12 : r1.ns ≤ r2.ns)
    (hlt : r2.Before { l with start := some r1 }.nextRotate = true) :
    { l with start := some r2 }.nextRotate = { l with start := some r1 }.nextRotate := by
  have hage1 : l.maxAge = 1 * month := by rw [hage]; simp [month]
  have e1 := nextRotate_months { l with start := some r1 } r1 1 hz rfl le_rfl hage1
  have e2 := nextRotate_months { l with start := some r2 } r2 1 hz rfl le_rfl hage1
  simp only [] at e1 e2
  rw [e1] at hlt ⊢
  rw [e2]
  have hL := localSec_mono r1 r2 l.timeZone hz h12
  have hX := localSec_lt_of_before r2 _ l.timeZone hz hlt
  obtain ⟨_, _, c3, c4, _⟩ := civil_spec (r1.In l.timeZone).localDay
  have hD1 : (r1.In l.timeZone).localDay ≤ (r2.In l.timeZone).localDay := by
    simp only [Time.localDay]
    omega
  have hD2 : (r2.In l.timeZone).localDay <
      monthStart (monthIndex (r1.In l.timeZone).localDay + 1) := by
    generalize monthStart (monthIndex (r1.In l.timeZone).localDay + 1) = M at hX
    simp only [Time.localDay]
    omega
  have hidx : monthIndex (r2.In l.timeZone).localDay = monthIndex (r1.In l.timeZone).localDay :=
    monthIndex_eq_of_mem _ _ (by omega) hD2
  rw [hidx]

theorem no_drift_week (l : RotateFile) (r1 r2 : Time) (hz : l.timeZone.transitions = [])
    (hage : l.maxAge = 7 * 24 * Hour)
    (h12 : r1.ns ≤ r2.ns)
    (hlt : r2.Before { l with start := some r1 }.nextRotate = true) :
    { l with start := some r2 }.nextRotate = { l with start := some r1 }.nextRotate := by
  have hage1 : l.maxAge = 1 * week := by rw [hage]; simp [week]
  have hnm : rem (1 * week) month ≠ 0 := by decide
  have e1 := nextRotate_weeks { l with start := some r1 } r1 1 hz rfl le_rfl hage1 hnm
  have e2 := nextRotate_weeks { l with start := some r2 } r2 1 hz rfl le_rfl hage1 hnm
  simp only [] at e1 e2
  rw [e1] at hlt ⊢
  rw [e2]
  have hL := localSec_mono r1 r2 l.timeZone hz h12
  have hX := localSec_lt_of_before r2 _ l.timeZone hz hlt
  have : (r2.In l.timeZone).localDay - ((r2.In l.timeZone).localDay + 1) % 7 =
      (r1.In l.timeZone).localDay - ((r1.In l.timeZone).localDay + 1) % 7 := by
    simp only [Time.localDay] at hX ⊢
    omega
  rw [this]

theorem no_drift_day (l : RotateFile) (r1 r2 : Time) (hz : l.timeZone.transitions = [])
    (hage : l.maxAge = 24 * Hour)
    (h12 : r1.ns ≤ r2.ns)
    (hlt : r2.Before { l with start := some r1 }.nextRotate = true) :
    { l with start := some r2 }.nextRotate = { l with start := some r1 }.nextRotate := by
  have hage1 : l.maxAge = 1 * day := by rw [hage]; simp [day]
  have hnm : rem (1 * day) month ≠ 0 := by decide
  have hnw : rem (1 * day) week ≠ 0 := by decide
  have e1 := nextRotate_days { l with start := some r1 } r1 1 hz rfl le_rfl hage1 hnm hnw
  have e2 := nextRotate_days { l with start := some r2 } r2 1 hz rfl le_rfl hage1 hnm hnw
  simp only [] at e1 e2
  rw [e1] at hlt ⊢
  rw [e2]
  have hL := localSec_mono r1 r2 l.timeZone hz h12
  have hX := localSec_lt_of_before r2 _ l.timeZone hz hlt
  have : (r2.In l.timeZone).localDay = (r1.In l.timeZone).localDay := by
    simp only [Time.localDay] at hX ⊢
    omega
  rw [this]

theorem no_drift_hour_aux (l : RotateFile) (r1 r2 : Time) (hn : Int)
    (hz : l.timeZone.transitions = []) (h0 : 1 ≤ hn)
    (hnm : rem (hn * Hour) month ≠ 0) (hnw : rem (hn * Hour) week ≠ 0)
    (hnd : rem (hn * Hour) day ≠ 0)
    (harith : ∀ a b : Int, a ≤ b → b < a / 86400 * 86400 + (a % 86400 / 3600 + hn) / hn * hn * 3600 →
      b / 86400 * 86400 + (b % 86400 / 3600 + hn) / hn * hn * 3600 =
        a / 86400 * 86400 + (a % 86400 / 3600 + hn) / hn * hn * 3600)
    (hage : l.maxAge = hn * Hour) (h12 : r1.ns ≤ r2.ns)
    (hlt : r2.Before { l with start := some r1 }.nextRotate = true) :
    { l with start := some r2 }.nextRotate = { l with start := some r1 }.nextRotate := by
  have hL := localSec_mono r1 r2 l.timeZone hz h12
  have e1 := nextRotate_hours { l with start := some r1 } r1 hn hz rfl h0 hage hnm hnw hnd
  have e2 := nextRotate_hours { l with start := some r2 } r2 hn hz rfl h0 hage hnm hnw hnd
  simp only [] at e1 e2
  rw [e1] at hlt ⊢
  rw [e2]
  have hX := localSec_lt_of_before r2 _ l.timeZone hz hlt
  simp only [Time.localDay, Time.Hour] at hX ⊢
  rw [harith _ _ hL hX]

theorem no_drift_hour (l : RotateFile) (r1 r2 : Time) (hn : Int)
    (hz : l.timeZone.transitions = []) (h0 : 0 < hn) (h24 : hn < 24)
    (hdvd : 24 % hn = 0) (hage : l.maxAge = hn * Hour) (h12 : r1.ns ≤ r2.ns)
    (hlt : r2.Before { l with start := some r1 }.nextRotate = true) :
    { l with start := some r2 }.nextRotate = { l with start := some r1 }.nextRotate := by
  have hcases : hn = 1 ∨ hn = 2 ∨ hn = 3 ∨ hn = 4 ∨ hn = 6 ∨ hn = 8 ∨ hn = 12 := by
    interval_cases hn <;> simp_all
  rcases hcases with h | h | h | h | h | h | h <;> subst h <;>
    exact no_drift_hour_aux l r1 r2 _ hz (by decide) (by decide) (by decide) (by decide)
      (by intro a b hab hb; omega) hage h12 hlt

/-! ## The boundary within a bucket -/

/-- C3 as stated fails for every kind of period it names: with a period of 60
days, of 14 days, of 2 days and of 5 hours (UTC), a second reference instant
inside the bucket of the first gets a later boundary. The instants are
`0001-01-01 00:00` with `0001-02-01 00:00`, `0001-01-08 00:00`,
`0001-01-02 00:00`, and `0001-01-01 20:00` with `0001-01-02 00:30`. -/
theorem no_drift_counterexample :
    (Time.ns ⟨0, UTC⟩ ≤ Time.ns ⟨31 * 86400 * Second, UTC⟩ ∧
      Time.Before ⟨31 * 86400 * Second, UTC⟩
        { Open UTC "/tmp/a.log" (60 * 24 * Hour) (-1) 1 with start := some ⟨0, UTC⟩ }.nextRotate
        = true ∧
      { Open UTC "/tmp/a.log" (60 * 24 * Hour) (-1) 1 with
          start := some ⟨31 * 86400 * Second, UTC⟩ }.nextRotate ≠
        { Open UTC "/tmp/a.log" (60 * 24 * Hour) (-1) 1 with start := some ⟨0, UTC⟩ }.nextRotate) ∧
    (Time.ns ⟨0, UTC⟩ ≤ Time.ns ⟨7 * 86400 * Second, UTC⟩ ∧
      Time.Before ⟨7 * 86400 * Second, UTC⟩
        { Open UTC "/tmp/a.log" (14 * 24 * Hour) (-1) 1 with start := some ⟨0, UTC⟩ }.nextRotate
        = true ∧
      { Open UTC "/tmp/a.log" (14 * 24 * Hour) (-1) 1 with
          start := some ⟨7 * 86400 * Second, UTC⟩ }.nextRotate ≠
        { Open UTC "/tmp/a.log" (14 * 24 * Hour) (-1) 1 with start := some ⟨0, UTC⟩ }.nextRotate) ∧
    (Time.ns ⟨0, UTC⟩ ≤ Time.ns ⟨86400 * Second, UTC⟩ ∧
      Time.Before ⟨86400 * Second, UTC⟩
        { Open UTC "/tmp/a.log" (2 * 24 * Hour) (-1) 1 with start := some ⟨0, UTC⟩ }.nextRotate
        = true ∧
      { Open UTC "/tmp/a.log" (2 * 24 * Hour) (-1) 1 with
          start := some ⟨86400 * Second, UTC⟩ }.nextRotate ≠
        { Open UTC "/tmp/a.log" (2 * 24 * Hour) (-1) 1 with start := some ⟨0, UTC⟩ }.nextRotate) ∧
    (Time.ns ⟨72000 * Second, UTC⟩ ≤ Time.ns ⟨88200 * Second, UTC⟩ ∧
      Time.Before ⟨88200 * Second, UTC⟩
        { Open UTC "/tmp/a.log" (5 * Hour) (-1) 1 with
          start := some ⟨72000 * Second, UTC⟩ }.nextRotate = true ∧
      { Open UTC "/tmp/a.log" (5 * Hour) (-1) 1 with
          start := some ⟨88200 * Second, UTC⟩ }.nextRotate ≠
        { Open UTC "/tmp/a.log" (5 * Hour) (-1) 1 with
          start := some ⟨72000 * Second, UTC⟩ }.nextRotate) := by
  decide

/-- C3, amended: for a period of exactly 30 days, exactly 7 days, exactly one
day, or a whole number of hours that divides 24, every fixed-offset time zone
(a location without transitions) and every two reference instants `r1 ≤ r2`
with `r2` before `nextRotate` from `r1`, `nextRotate` from `r2` equals
`nextRotate` from `r1`. -/
theorem nextRotate_no_drift (l : RotateFile) (r1 r2 : Time)
    (hz : l.timeZone.transitions = [])
    (hper : l.maxAge = 30 * 24 * Hour ∨ l.maxAge = 7 * 24 * Hour ∨ l.maxAge = 24 * Hour ∨
      ∃ hn : Int, 0 < hn ∧ hn < 24 ∧ 24 % hn = 0 ∧ l.maxAge = hn * Hour)
    (h12 : r1.ns ≤ r2.ns)
    (hlt : r2.Before { l with start := some r1 }.nextRotate = true) :
    { l with start := some r2 }.nextRotate = { l with start := some r1 }.nextRotate := by
  rcases hper with h | h | h | ⟨hn, h0, h24, hdvd, h⟩
  · exact no_drift_month l r1 r2 hz h h12 hlt
  · exact no_drift_week l r1 r2 hz h h12 hlt
  · exact no_drift_day l r1 r2 hz h h12 hlt
  · exact no_drift_hour l r1 r2 hn hz h0 h24 hdvd h h12 hlt

/-- C3, amended, on the one-hour stream of `TestNextRotate` in a zone eight
hours west of UTC: 22:27:09 UTC and 22:50:00 UTC share the boundary 23:00 UTC
(15:00 local). -/
theorem nextRotate_no_drift_witness :
    (Open (FixedZone (-28800)) "/tmp/a.log" Hour (-1) 1).timeZone.transitions = [] ∧
      (63713341629000012345 : Int) ≤ 63713343000000000000 ∧
      Time.Before ⟨63713343000000000000, UTC⟩
        { Open (FixedZone (-28800)) "/tmp/a.log" Hour (-1) 1 with
          start := some ⟨63713341629000012345, UTC⟩ }.nextRotate = true ∧
      { Open (FixedZone (-28800)) "/tmp/a.log" Hour (-1) 1 with
          start := some ⟨63713343000000000000, UTC⟩ }.nextRotate =
        { Open (FixedZone (-28800)) "/tmp/a.log" Hour (-1) 1 with
          start := some ⟨63713341629000012345, UTC⟩ }.nextRotate :=
  ⟨rfl, by decide, by decide,
    nextRotate_no_drift (Open (FixedZone (-28800)) "/tmp/a.log" Hour (-1) 1)
      ⟨63713341629000012345, UTC⟩ ⟨63713343000000000000, UTC⟩ rfl
      (Or.inr (Or.inr (Or.inr ⟨1, by decide, by decide, by decide, by decide⟩)))
      (by decide) (by decide)⟩

/-! ## Weekly periods -/

set_option maxRecDepth 4000 in
/-- C5 as stated fails. On the weekly stream of `TestNextRotate` (bucket start
2019-12-30 22:27:09 UTC, zone eight hours west of UTC) `nextRotate` is
2020-01-05 00:00 local time, whose weekday is 0, a Sunday, not 1, a Monday.
With the period -7 days, also an exact multiple of 7 days, the same start gets
the next local midnight, 2019-12-31, a Tuesday. In a zone that moves from
UTC-4 to UTC-3 at 00:00 local time on Sunday 2023-10-01 (as America/Asuncion
does), the weekly boundary after 2023-09-26 12:00 UTC is 23:00 local time on
Saturday 2023-09-30, not a local midnight. -/
theorem nextRotate_week_counterexample :
    ({ Open (FixedZone (-28800)) "/tmp/a.log" (7 * 24 * Hour) (-1) 1 with
        start := some ⟨63713341629000012345, UTC⟩ }.nextRotate =
        Date 2020 1 5 0 0 0 0 (FixedZone (-28800)) ∧
      { Open (FixedZone (-28800)) "/tmp/a.log" (7 * 24 * Hour) (-1) 1 with
        start := some ⟨63713341629000012345, UTC⟩ }.nextRotate.Weekday = 0 ∧
      { Open (FixedZone (-28800)) "/tmp/a.log" (7 * 24 * Hour) (-1) 1 with
        start := some ⟨63713341629000012345, UTC⟩ }.nextRotate.Weekday ≠ 1) ∧
    (rem (-7 * 24 * Hour) (7 * 24 * Hour) = 0 ∧ rem (-7 * 24 * Hour) (30 * 24 * Hour) ≠ 0 ∧
      { Open (FixedZone (-28800)) "/tmp/a.log" (-7 * 24 * Hour) (-1) 1 with
        start := some ⟨63713341629000012345, UTC⟩ }.nextRotate =
        Date 2019 12 31 0 0 0 0 (FixedZone (-28800)) ∧
      { Open (FixedZone (-28800)) "/tmp/a.log" (-7 * 24 * Hour) (-1) 1 with
        start := some ⟨63713341629000012345, UTC⟩ }.nextRotate.Weekday = 2) ∧
    ({ Open ⟨-14400, [(63831729600, -10800)]⟩ "/tmp/a.log" (7 * 24 * Hour) (-1) 1 with
        start := some ⟨63831326400000000000, UTC⟩ }.nextRotate.Hour = 23 ∧
      { Open ⟨-14400, [(63831729600, -10800)]⟩ "/tmp/a.log" (7 * 24 * Hour) (-1) 1 with
        start := some ⟨63831326400000000000, UTC⟩ }.nextRotate.Weekday = 6 ∧
      { Open ⟨-14400, [(63831729600, -10800)]⟩ "/tmp/a.log" (7 * 24 * Hour) (-1) 1 with
        start := some ⟨63831326400000000000, UTC⟩ }.nextRotate.Day = 30) :=
  ⟨⟨by decide, by decide, by decide⟩, ⟨by decide, by decide, by decide, by decide⟩,
    ⟨by decide, by decide, by decide⟩⟩

/-- C5, amended: in a fixed-offset configured time zone (a location without
transitions), for every bucket start and every period that is a positive
multiple of 7 days (`wn ≥ 1` weeks) and not a multiple of 30 days,
`nextRotate` is 00:00:00 local time of a Sunday (weekday 0): the day `7 * wn`
days after the Sunday on or before the local day of the bucket start. -/
theorem nextRotate_week_boundary (l : RotateFile) (t : Time) (wn : Int)
    (hz : l.timeZone.transitions = []) (hs : l.start = some t) (hwn : 1 ≤ wn)
    (hage : l.maxAge = wn * (7 * 24 * Hour))
    (hnm : rem l.maxAge (30 * 24 * Hour) ≠ 0) :
    l.nextRotate.loc = l.timeZone ∧ l.nextRotate.Weekday = 0 ∧
      l.nextRotate.localDay =
        (t.In l.timeZone).localDay - (t.In l.timeZone).Weekday + 7 * wn ∧
      l.nextRotate.Hour = 0 ∧ l.nextRotate.Minute = 0 ∧ l.nextRotate.Second = 0 ∧
      l.nextRotate.Nanosecond = 0 := by
  rw [hage] at hnm
  rw [nextRotate_weeks l t wn hz hs hwn hage hnm]
  obtain ⟨f1, f2, f3, f4, f5⟩ := midnight_fields
    ((t.In l.timeZone).localDay - ((t.In l.timeZone).localDay + 1) % 7 + 7 * wn) l.timeZone hz
  refine ⟨rfl, ?_, ?_, f2, f3, f4, f5⟩
  · simp only [Time.Weekday, f1]
    omega
  · simp only [Time.Weekday, f1]

/-- C5, amended, on the weekly stream of `TestNextRotate`: the boundary is a
Sunday, six days after the Monday of the bucket start. -/
theorem nextRotate_week_boundary_witness :
    (Open (FixedZone (-28800)) "/tmp/a.log" (7 * 24 * Hour) (-1) 1).timeZone.transitions = [] ∧
      rem (Open (FixedZone (-28800)) "/tmp/a.log" (7 * 24 * Hour) (-1) 1).maxAge
        (30 * 24 * Hour) ≠ 0 ∧
      (Time.In ⟨63713341629000012345, UTC⟩ (FixedZone (-28800))).Weekday = 1 ∧
      { Open (FixedZone (-28800)) "/tmp/a.log" (7 * 24 * Hour) (-1) 1 with
        start := some ⟨63713341629000012345, UTC⟩ }.nextRotate.Weekday = 0 ∧
      { Open (FixedZone (-28800)) "/tmp/a.log" (7 * 24 * Hour) (-1) 1 with
        start := some ⟨63713341629000012345, UTC⟩ }.nextRotate.localDay =
        (Time.In ⟨63713341629000012345, UTC⟩ (FixedZone (-28800))).localDay + 6 :=
  have h := nextRotate_week_boundary
    { Open (FixedZone (-28800)) "/tmp/a.log" (7 * 24 * Hour) (-1) 1 with
      start := some ⟨63713341629000012345, UTC⟩ }
    ⟨63713341629000012345, UTC⟩ 1 rfl rfl (by decide) (by decide) (by decide)
  ⟨rfl, by decide, by decide, h.2.1, h.2.2.1⟩

/-! ## Monthly periods -/

/-- C6 as stated fails where local midnight does not exist. In a zone that
moves from UTC-4 to UTC-3 at 00:00 local time on 2023-10-01 (as
America/Asuncion does), the clock jumps from 00:00 to 01:00 on day 1 of
October. For a bucket start at 2023-09-15 12:00 UTC, in September 2023 local
time, and a period of 30 days, `nextRotate` is 23:00 local time on 2023-09-30,
not 00:00:00 on day 1 of October. -/
theorem nextRotate_month_counterexample :
    (Time.In ⟨63830376000000000000, UTC⟩ ⟨-14400, [(63831729600, -10800)]⟩).Year = 2023 ∧
      (Time.In ⟨63830376000000000000, UTC⟩ ⟨-14400, [(63831729600, -10800)]⟩).Month = 9 ∧
      { Open ⟨-14400, [(63831729600, -10800)]⟩ "/tmp/a.log" (30 * 24 * Hour) (-1) 1 with
        start := some ⟨63830376000000000000, UTC⟩ }.nextRotate.Month = 9 ∧
      { Open ⟨-14400, [(63831729600, -10800)]⟩ "/tmp/a.log" (30 * 24 * Hour) (-1) 1 with
        start := some ⟨63830376000000000000, UTC⟩ }.nextRotate.Day = 30 ∧
      { Open ⟨-14400, [(63831729600, -10800)]⟩ "/tmp/a.log" (30 * 24 * Hour) (-1) 1 with
        start := some ⟨63830376000000000000, UTC⟩ }.nextRotate.Hour = 23 := by
  decide

/-- C6, amended, on the 30-day stream of `TestNextRotate` in the fixed zone
eight hours west of UTC: from 2019-12-30 14:27 local time the boundary is
2020-01-01 00:00 local time. -/
theorem nextRotate_month_boundary_witness :
    (Open (FixedZone (-28800)) "/tmp/a.log" (30 * 24 * Hour) (-1) 1).timeZone.transitions = [] ∧
      (Time.In ⟨63713341629000012345, UTC⟩ (FixedZone (-28800))).Year = 2019 ∧
      (Time.In ⟨63713341629000012345, UTC⟩ (FixedZone (-28800))).Month = 12 ∧
      { Open (FixedZone (-28800)) "/tmp/a.log" (30 * 24 * Hour) (-1) 1 with
        start := some ⟨63713341629000012345, UTC⟩ }.nextRotate =
        Date 2020 1 1 0 0 0 0 (FixedZone (-28800)) :=
  ⟨rfl, by decide, by decide,
    (nextRotate_month_boundary
      { Open (FixedZone (-28800)) "/tmp/a.log" (30 * 24 * Hour) (-1) 1 with
        start := some ⟨63713341629000012345, UTC⟩ }
      ⟨63713341629000012345, UTC⟩ 1 2019 12 rfl rfl (by decide) (by decide) (by decide)
      (by decide)).1⟩

/-! ## Retention -/

theorem run_append (s : Sys) (a b : List (Op × Env)) : run s (a ++ b) = run (run s a) b := by
  induction a generalizing s with
  | nil => rfl
  | cons x a ih => exact ih _

set_option maxRecDepth 8000 in
theorem retention_round1 :
    run (start UTC "/tmp/app.log" (15 * Minute) 1024 1 [])
        [(Op.write [1, 2, 3, 4, 5, 6, 7, 8], Env.ok 63713341629000000000 0),
          (Op.rotate, Env.ok 63713341630000000000 1),
          (Op.background, ⟨0, 0, false, false, false, false, false, none, 101⟩)] =
      ⟨⟨"/tmp/app.log", "/tmp/", "app", ".log", 900000000000, 1024, 1, UTC, 8, none, none,
          ⟨63713341800000000000, UTC⟩, false⟩,
        [("/tmp/app-20191230T2227_000.log.gz", 101)], []⟩ := by
  decide

set_option maxRecDepth 8000 in
theorem retention_round2 :
    run ⟨⟨"/tmp/app.log", "/tmp/", "app", ".log", 900000000000, 1024, 1, UTC, 8, none, none,
          ⟨63713341800000000000, UTC⟩, false⟩,
        [("/tmp/app-20191230T2227_000.log.gz", 101)], []⟩
        [(Op.write [1, 2, 3, 4, 5, 6, 7, 8], Env.ok 63713341631000000000 0),
          (Op.rotate, Env.ok 63713341632000000000 2),
          (Op.background, ⟨0, 0, false, false, false, false, false, none, 102⟩)] =
      ⟨⟨"/tmp/app.log", "/tmp/", "app", ".log", 900000000000, 1024, 1, UTC, 8, none, none,
          ⟨63713341800000000000, UTC⟩, false⟩,
        [("/tmp/app-20191230T2227_001.log.gz", 102)], []⟩ := by
  decide

set_option maxRecDepth 8000 in
theorem retention_round3_rotate :
    run ⟨⟨"/tmp/app.log", "/tmp/", "app", ".log", 900000000000, 1024, 1, UTC, 8, none, none,
          ⟨63713341800000000000, UTC⟩, false⟩,
        [("/tmp/app-20191230T2227_001.log.gz", 102)], []⟩
        [(Op.write [1, 2, 3, 4, 5, 6, 7, 8], Env.ok 63713341633000000000 0),
          (Op.rotate, Env.ok 63713341634000000000 3)] =
      ⟨⟨"/tmp/app.log", "/tmp/", "app", ".log", 900000000000, 1024, 1, UTC, 8, none, none,
          ⟨63713341800000000000, UTC⟩, false⟩,
        [("/tmp/app-20191230T2227_001.log.gz", 102),
          ("/tmp/app-20191230T2227_x0000000000000003.log", 30)],
        [("/tmp/app-20191230T2227_x0000000000000003.log", "20191230T2227")]⟩ := by
  decide

set_option maxRecDepth 8000 in
theorem retention_round3_compress :
    (Sys.compress ⟨⟨"/tmp/app.log", "/tmp/", "app", ".log", 900000000000, 1024, 1, UTC, 8, none,
          none, ⟨63713341800000000000, UTC⟩, false⟩,
        [("/tmp/app-20191230T2227_001.log.gz", 102),
          ("/tmp/app-20191230T2227_x0000000000000003.log", 30)],
        [("/tmp/app-20191230T2227_x0000000000000003.log", "20191230T2227")]⟩
        ⟨0, 0, false, false, false, false, false, none, 103⟩
        "/tmp/app-20191230T2227_x0000000000000003.log" "20191230T2227").1 =
      ("/tmp/app-20191230T2227_000.log.gz", none) := by
  decide

set_option maxRecDepth 8000 in
theorem retention_round3_background :
    (Sys.background ⟨⟨"/tmp/app.log", "/tmp/", "app", ".log", 900000000000, 1024, 1, UTC, 8, none,
          none, ⟨63713341800000000000, UTC⟩, false⟩,
        [("/tmp/app-20191230T2227_001.log.gz", 102),
          ("/tmp/app-20191230T2227_x0000000000000003.log", 30)],
        [("/tmp/app-20191230T2227_x0000000000000003.log", "20191230T2227")]⟩
        ⟨0, 0, false, false, false, false, false, none, 103⟩).fs =
      [("/tmp/app-20191230T2227_001.log.gz", 102)] := by
  decide

/-- C4 (what the code does): `Open("/tmp/app.log", 15 minutes, 1024, 1)`, then
three rounds of an 8-byte write, `Rotate()` and the `compressAndCleanup`
goroutine, all within the minute 2019-12-30 22:27 UTC, with gzip sizes 101, 102
and 103. In the third round `compress` writes the backup to sequence number
000, which the second cleanup had freed, and `cleanup` then deletes it as the
lexically first name: the directory ends with the backup of the second
rotation (`_001`, 102 bytes) alone, not with that of the third. -/
theorem retention_drops_newest :
    ((run (start UTC "/tmp/app.log" (15 * Minute) 1024 1 [])
        [(Op.write [1, 2, 3, 4, 5, 6, 7, 8], Env.ok 63713341629000000000 0),
          (Op.rotate, Env.ok 63713341630000000000 1),
          (Op.background, ⟨0, 0, false, false, false, false, false, none, 101⟩),
          (Op.write [1, 2, 3, 4, 5, 6, 7, 8], Env.ok 63713341631000000000 0),
          (Op.rotate, Env.ok 63713341632000000000 2),
          (Op.background, ⟨0, 0, false, false, false, false, false, none, 102⟩),
          (Op.write [1, 2, 3, 4, 5, 6, 7, 8], Env.ok 63713341633000000000 0),
          (Op.rotate, Env.ok 63713341634000000000 3)]).compress
        ⟨0, 0, false, false, false, false, false, none, 103⟩
        "/tmp/app-20191230T2227_x0000000000000003.log" "20191230T2227").1 =
        ("/tmp/app-20191230T2227_000.log.gz", none) ∧
      ((run (start UTC "/tmp/app.log" (15 * Minute) 1024 1 [])
        [(Op.write [1, 2, 3, 4, 5, 6, 7, 8], Env.ok 63713341629000000000 0),
          (Op.rotate, Env.ok 63713341630000000000 1),
          (Op.background, ⟨0, 0, false, false, false, false, false, none, 101⟩),
          (Op.write [1, 2, 3, 4, 5, 6, 7, 8], Env.ok 63713341631000000000 0),
          (Op.rotate, Env.ok 63713341632000000000 2),
          (Op.background, ⟨0, 0, false, false, false, false, false, none, 102⟩),
          (Op.write [1, 2, 3, 4, 5, 6, 7, 8], Env.ok 63713341633000000000 0),
          (Op.rotate, Env.ok 63713341634000000000 3)]).background
        ⟨0, 0, false, false, false, false, false, none, 103⟩).fs =
        [("/tmp/app-20191230T2227_001.log.gz", 102)] := by
  have h8 : run (start UTC "/tmp/app.log" (15 * Minute) 1024 1 [])
      ([(Op.write [1, 2, 3, 4, 5, 6, 7, 8], Env.ok 63713341629000000000 0),
          (Op.rotate, Env.ok 63713341630000000000 1),
          (Op.background, ⟨0, 0, false, false, false, false, false, none, 101⟩)] ++
        ([(Op.write [1, 2, 3, 4, 5, 6, 7, 8], Env.ok 63713341631000000000 0),
          (Op.rotate, Env.ok 63713341632000000000 2),
          (Op.background, ⟨0, 0, false, false, false, false, false, none, 102⟩)] ++
        [(Op.write [1, 2, 3, 4, 5, 6, 7, 8], Env.ok 63713341633000000000 0),
          (Op.rotate, Env.ok 63713341634000000000 3)])) =
      ⟨⟨"/tmp/app.log", "/tmp/", "app", ".log", 900000000000, 1024, 1, UTC, 8, none, none,
          ⟨63713341800000000000, UTC⟩, false⟩,
        [("/tmp/app-20191230T2227_001.log.gz", 102),
          ("/tmp/app-20191230T2227_x0000000000000003.log", 30)],
        [("/tmp/app-20191230T2227_x0000000000000003.log", "20191230T2227")]⟩ := by
    rw [run_append, run_append, retention_round1, retention_round2, retention_round3_rotate]
  simp only [List.cons_append, List.nil_append] at h8
  rw [h8]
  exact ⟨retention_round3_compress, retention_round3_background⟩

/-- The sweep is a no-op when retention is disabled or at most `maxBackups`
backups match the pattern. -/
theorem cleanup_noop (s : Sys)
    (h : s.l.maxBackups ≤ 0 ∨ ((Glob s.fs s.backupPattern).length : Int) ≤ s.l.maxBackups) :
    s.cleanup = (none, s) := by
  simp only [Sys.cleanup]
  split_ifs with h1 h2
  · rfl
  · rfl
  · exact absurd h (by push_neg; exact ⟨lt_of_not_le h1, lt_of_not_le h2⟩)

/-! ## The boundary lies after the bucket start -/

/-- An instant whose local second count in `z` is below `X` lies before the
instant `X` seconds on the local clock of `z`. -/
theorem before_of_localSec_lt (t : Time) (X : Int) (z : Location) (hz : z.transitions = [])
    (h : (t.In z).localSec < X) : t.Before ⟨(X - z.offset) * Second, z⟩ = true := by
  have hS := units.1
  simp only [Time.Before, decide_eq_true_eq]
  rw [localSec_fixed (t.In z) hz] at h
  simp only [Time.In, hS] at h ⊢
  omega

/-- Periods below one minute are treated as one day. -/
theorem nextRotate_clamp (l : RotateFile) (h : l.maxAge < Minute) :
    l.nextRotate = { l with maxAge := day }.nextRotate := by
  have hd : ¬ day < Minute := by decide
  simp only [RotateFile.nextRotate, h, if_true, hd, if_false]

/-- The boundary of a period that is not a whole number of hours: the instant
`mn` minutes after the bucket start, cut back to the hour plus a multiple of
`mn` minutes. -/
theorem nextRotate_minutes (l : RotateFile) (t : Time) (hz : l.timeZone.transitions = [])
    (hs : l.start = some t)
    (hage : Minute ≤ l.maxAge) (hnm : rem l.maxAge month ≠ 0) (hnw : rem l.maxAge week ≠ 0)
    (hnd : rem l.maxAge day ≠ 0) (hnh : rem l.maxAge Hour ≠ 0) :
    l.nextRotate =
      ⟨(((t.In l.timeZone).Add (l.maxAge / Minute * Minute)).localDay * 86400 +
          (((t.In l.timeZone).Add (l.maxAge / Minute * Minute)).Hour * 3600 +
            l.maxAge / Minute *
              (((t.In l.timeZone).Add (l.maxAge / Minute * Minute)).Minute / (l.maxAge / Minute))
              * 60) - l.timeZone.offset) * Second, l.timeZone⟩ := by
  obtain ⟨hS, hM, hH, hd, hw, hm⟩ := units
  have hdur : ¬ l.maxAge < Minute := not_lt.mpr hage
  have hq : quo l.maxAge Minute = l.maxAge / Minute :=
    quo_of_nonneg (by rw [hM] at hage; omega) (by rw [hM]; decide)
  have hmn : 1 ≤ l.maxAge / Minute := by rw [hM] at hage ⊢; omega
  have hmin0 : 0 ≤ ((t.In l.timeZone).Add (l.maxAge / Minute * Minute)).Minute := by
    simp only [Time.Minute]; omega
  have hq2 : quo ((t.In l.timeZone).Add (l.maxAge / Minute * Minute)).Minute (l.maxAge / Minute) =
      ((t.In l.timeZone).Add (l.maxAge / Minute * Minute)).Minute / (l.maxAge / Minute) :=
    quo_of_nonneg hmin0 (by omega)
  simp only [RotateFile.nextRotate, hs, hdur, if_false, hnm, hnw, hnd, hnh, hq, hq2]
  rw [Date_fields _ _ _ _ _ _ hz]
  simp

/-- A period that is a multiple of the unit `u` is `k ≥ 1` units long. -/
theorem units_of_rem_zero (a u : Int) (ha : Minute ≤ a) (hu : 0 < u) (h : rem a u = 0) :
    a = quo a u * u ∧ 1 ≤ quo a u := by
  have e : u * quo a u = a := Int.mul_tdiv_cancel_of_tmod_eq_zero h
  refine ⟨by rw [mul_comm]; exact e.symm, ?_⟩
  have hM := units.2.1
  by_contra hk
  have hle : quo a u ≤ 0 := by omega
  have : u * quo a u ≤ 0 := mul_nonpos_of_nonneg_of_nonpos hu.le hle
  rw [hM] at ha
  omega

/-- For a period of at least one minute the boundary lies after the bucket
start. -/
theorem nextRotate_after (l : RotateFile) (t : Time) (hz : l.timeZone.transitions = [])
    (hs : l.start = some t) (hage : Minute ≤ l.maxAge) : t.Before l.nextRotate = true := by
  obtain ⟨hS, hM, hH, hd, hw, hm⟩ := units
  by_cases h1 : rem l.maxAge month = 0
  · obtain ⟨e, hk⟩ := units_of_rem_zero l.maxAge month hage (by rw [hm]; decide) h1
    rw [nextRotate_months l t _ hz hs hk e]
    apply before_of_localSec_lt _ _ _ hz
    obtain ⟨_, _, _, _, c5⟩ := civil_spec (t.In l.timeZone).localDay
    have hmono := monthStart_strictMono.monotone
      (show monthIndex (t.In l.timeZone).localDay + 1 ≤
        monthIndex (t.In l.timeZone).localDay + quo l.maxAge month by omega)
    simp only [Time.localDay] at c5 hmono ⊢
    omega
  by_cases h2 : rem l.maxAge week = 0
  · obtain ⟨e, hk⟩ := units_of_rem_zero l.maxAge week hage (by rw [hw]; decide) h2
    rw [nextRotate_weeks l t _ hz hs hk e (by rw [← e]; exact h1)]
    apply before_of_localSec_lt _ _ _ hz
    simp only [Time.localDay]
    omega
  by_cases h3 : rem l.maxAge day = 0
  · obtain ⟨e, hk⟩ := units_of_rem_zero l.maxAge day hage (by rw [hd]; decide) h3
    rw [nextRotate_days l t _ hz hs hk e (by rw [← e]; exact h1) (by rw [← e]; exact h2)]
    apply before_of_localSec_lt _ _ _ hz
    simp only [Time.localDay]
    omega
  by_cases h4 : rem l.maxAge Hour = 0
  · obtain ⟨e, hk⟩ := units_of_rem_zero l.maxAge Hour hage (by rw [hH]; decide) h4
    rw [nextRotate_hours l t _ hz hs hk e (by rw [← e]; exact h1) (by rw [← e]; exact h2)
      (by rw [← e]; exact h3)]
    apply before_of_localSec_lt _ _ _ hz
    generalize quo l.maxAge Hour = hn at hk
    have hh0 : 0 ≤ (t.In l.timeZone).Hour := by simp only [Time.Hour]; omega
    have hlt : (t.In l.timeZone).Hour < ((t.In l.timeZone).Hour + hn) / hn * hn := by
      have h5 := Int.emod_add_ediv ((t.In l.timeZone).Hour + hn) hn
      have h6 := Int.emod_lt_of_pos ((t.In l.timeZone).Hour + hn) (show 0 < hn by omega)
      rw [mul_comm] at h5
      omega
    simp only [Time.localDay, Time.Hour] at hlt ⊢
    omega
  · rw [nextRotate_minutes l t hz hs hage h1 h2 h3 h4]
    apply before_of_localSec_lt _ _ _ hz
    have hmn : 1 ≤ l.maxAge / Minute := by rw [hM] at hage ⊢; omega
    generalize l.maxAge / Minute = mn at hmn
    have hL : ((t.In l.timeZone).Add (mn * Minute)).localSec =
        (t.In l.timeZone).localSec + 60 * mn := by
      rw [localSec_fixed _ (show ((t.In l.timeZone).Add (mn * Minute)).loc.transitions = [] from hz),
        localSec_fixed _ (show (t.In l.timeZone).loc.transitions = [] from hz)]
      simp only [Time.Add, Time.In, hS, hM]
      omega
    simp only [Time.localDay, Time.Hour, Time.Minute, hL]
    generalize (t.In l.timeZone).localSec = L
    have h5 := Int.emod_add_ediv ((L + 60 * mn) % 3600 / 60) mn
    have h6 := Int.emod_lt_of_pos ((L + 60 * mn) % 3600 / 60) (show 0 < mn by omega)
    have h7 := Int.emod_nonneg ((L + 60 * mn) % 3600 / 60) (show mn ≠ 0 by omega)
    omega

/-- The boundary lies after the bucket start, whatever the period. -/
theorem nextRotate_after_any (l : RotateFile) (t : Time) (hz : l.timeZone.transitions = [])
    (hs : l.start = some t) : t.Before l.nextRotate = true := by
  by_cases h : l.maxAge < Minute
  · rw [nextRotate_clamp l h]
    exact nextRotate_after { l with maxAge := day } t hz hs (show Minute ≤ day by decide)
  · exact nextRotate_after l t hz hs (not_lt.mp h)

/-! ## Every bucket is non-empty -/

/-- C11: for every recorded start instant, every `maxAge` and every
fixed-offset time zone (a location without transitions), `nextRotate` is
strictly later than the start; a
`maxAge` below one minute (zero and negative durations included) gives the
boundary of a one-day period; and `needsRotate` called with `now` on a stream
with no recorded start and size limiting disabled (`maxSize ≤ 0`) returns
false. -/
theorem bucket_nonempty (l : RotateFile) (t : Time) (hz : l.timeZone.transitions = []) :
    (l.start = some t → t.Before l.nextRotate = true) ∧
      (l.maxAge < Minute → l.nextRotate = { l with maxAge := 24 * Hour }.nextRotate) ∧
      (l.start = none → l.maxSize ≤ 0 → ∀ size, (l.needsRotate t size).1 = false) := by
  refine ⟨nextRotate_after_any l t hz, nextRotate_clamp l, ?_⟩
  intro hs hmax size
  have hb := nextRotate_after_any { l with start := some t } t hz rfl
  have hm : ¬ 0 < l.maxSize := not_lt.mpr hmax
  simp only [RotateFile.needsRotate, hs, Option.isNone_none, if_true, hb, Bool.not_true,
    Bool.false_eq_true, if_false, gt_iff_lt, hm, decide_False, Bool.false_and]

/-- C11, on a stream opened with `maxAge = 0` in a zone eight hours west of
UTC: from the start 2019-12-30 22:27:09 UTC the boundary is the next local
midnight, later than the start, and the first `needsRotate` at that instant
returns false. -/
theorem bucket_nonempty_witness :
    (Open (FixedZone (-28800)) "/tmp/a.log" 0 (-1) 1).timeZone.transitions = [] ∧
      (Open (FixedZone (-28800)) "/tmp/a.log" 0 (-1) 1).start = none ∧
      (Open (FixedZone (-28800)) "/tmp/a.log" 0 (-1) 1).maxSize ≤ 0 ∧
      { Open (FixedZone (-28800)) "/tmp/a.log" 0 (-1) 1 with
          start := some ⟨63713341629000012345, UTC⟩ }.nextRotate =
        Date 2019 12 31 0 0 0 0 (FixedZone (-28800)) ∧
      Time.Before ⟨63713341629000012345, UTC⟩
        { Open (FixedZone (-28800)) "/tmp/a.log" 0 (-1) 1 with
          start := some ⟨63713341629000012345, UTC⟩ }.nextRotate = true ∧
      ((Open (FixedZone (-28800)) "/tmp/a.log" 0 (-1) 1).needsRotate ⟨63713341629000012345, UTC⟩ 100).1 =
        false :=
  ⟨rfl, by decide, by decide, by decide,
    (bucket_nonempty
      { Open (FixedZone (-28800)) "/tmp/a.log" 0 (-1) 1 with
        start := some ⟨63713341629000012345, UTC⟩ }
      ⟨63713341629000012345, UTC⟩ rfl).1 rfl,
    (bucket_nonempty (Open (FixedZone (-28800)) "/tmp/a.log" 0 (-1) 1)
      ⟨63713341629000012345, UTC⟩ rfl).2.2 (by decide) (by decide) 100⟩

end Logrotate
